import Mathlib

/-!
Verification of the request-coordination and fallback-pipeline layer of the
`asx-chart-n8n-integrated-tool` repository (`src/asx_mcp/pipeline.py`,
`src/asx_mcp/server.py`).

The Python code is shallowly embedded: pure string functions become Lean
functions over `List Char` / `String`; the per-request coordinator state
(`_RECENT_RESULTS`, `_RECENT_ERRORS`, `_IN_FLIGHT`) becomes an explicit record
transformed by the atomic sections of `create_asx_report`; external
collaborators (LibreOffice / docx2pdf subprocesses, the browser capture, the
Mail application, the file system probes) are parameters of the embedded
functions, as the spec itself treats them as black boxes.

Modelling scope, stated once here: strings are modelled at ASCII granularity
(`str.upper` / `str.lower` / `str.strip` / `\s` / `\w` / `str.isdigit` are the
ASCII versions, which agree with Python on every input appearing in the claims
and in the repository); `urllib.parse.urlparse` is modelled as the generic
`scheme://netloc/path?query#fragment` split without the legacy `;`-params
split of the last path segment and without IPv6 bracket hosts; `Path.resolve`
and writability of directories are environment oracles.
-/

/-! ## ASCII character classes (Python `re` classes and `str` predicates) -/

def isAsciiSpace (c : Char) : Bool :=
  c.toNat = 32 || c.toNat = 9 || c.toNat = 10 || c.toNat = 13 ||
  c.toNat = 11 || c.toNat = 12

def isUpperAlpha (c : Char) : Bool := 65 ≤ c.toNat && c.toNat ≤ 90

def isLowerAlpha (c : Char) : Bool := 97 ≤ c.toNat && c.toNat ≤ 122

def isDigitChar (c : Char) : Bool := 48 ≤ c.toNat && c.toNat ≤ 57

/-- `str.upper()` on one character (ASCII model). -/
def pyToUpper (c : Char) : Char :=
  if isLowerAlpha c then Char.ofNat (c.toNat - 32) else c

/-- `str.lower()` on one character (ASCII model). -/
def pyToLower (c : Char) : Char :=
  if isUpperAlpha c then Char.ofNat (c.toNat + 32) else c

def isUpperAlnum (c : Char) : Bool := isUpperAlpha c || isDigitChar c

def isUpperAlnumDot (c : Char) : Bool := isUpperAlnum c || c = '.'

/-- Python regex `\w` at ASCII granularity: `[A-Za-z0-9_]`. -/
def isWordChar (c : Char) : Bool :=
  isUpperAlpha c || isLowerAlpha c || isDigitChar c || c = '_'

/-- `str.isdigit()`: nonempty and all digits (ASCII model). -/
def pyIsDigit (l : List Char) : Bool := !l.isEmpty && l.all isDigitChar

/-! ## Python string primitives on `List Char` -/

/-- `str.strip()` with no argument: remove leading and trailing whitespace. -/
def pyStrip (l : List Char) : List Char :=
  ((l.dropWhile isAsciiSpace).reverse.dropWhile isAsciiSpace).reverse

/-- `str.strip(chars)`: remove leading and trailing characters from `cs`. -/
def pyStripChars (cs : List Char) (l : List Char) : List Char :=
  ((l.dropWhile (cs.contains ·)).reverse.dropWhile (cs.contains ·)).reverse

/-- `str.split(sep)` for a one-character separator (empty pieces kept). -/
def splitOnChar (sep : Char) : List Char → List (List Char)
  | [] => [[]]
  | c :: cs =>
    if c = sep then [] :: splitOnChar sep cs
    else
      match splitOnChar sep cs with
      | [] => [[c]]
      | t :: ts => (c :: t) :: ts

/-- Python `in` on strings: `sub` occurs as a contiguous substring of `l`. -/
def containsSeq (sub : List Char) : List Char → Bool
  | [] => sub.isEmpty
  | c :: cs => sub.isPrefixOf (c :: cs) || containsSeq sub cs

def containsStr (sub s : String) : Bool := containsSeq sub.toList s.toList

/-- `"; ".join(xs)`-style join used by the error aggregation. -/
def joinWith (sep : String) (xs : List String) : String := String.intercalate sep xs

/-! ## Python `dict` as an association list (insertion order preserved,
one entry per key: `d[k] = v` replaces in place, new keys are appended). -/

def dlookup {α : Type} : List (String × α) → String → Option α
  | [], _ => none
  | (k, v) :: rest, key => if k = key then some v else dlookup rest key

def dinsert {α : Type} : List (String × α) → String → α → List (String × α)
  | [], key, v => [(key, v)]
  | (k, w) :: rest, key, v =>
    if k = key then (k, v) :: rest else (k, w) :: dinsert rest key v

def derase {α : Type} : List (String × α) → String → List (String × α)
  | [], _ => []
  | (k, w) :: rest, key =>
    if k = key then derase rest key else (k, w) :: derase rest key

theorem dlookup_dinsert_self {α : Type} (l : List (String × α)) (k : String) (v : α) :
    dlookup (dinsert l k v) k = some v := by
  induction l with
  | nil => simp [dinsert, dlookup]
  | cons p rest ih =>
    obtain ⟨k', w⟩ := p
    by_cases h : k' = k <;> simp [dinsert, dlookup, h, ih]

theorem dlookup_dinsert_ne {α : Type} (l : List (String × α)) (k k' : String) (v : α)
    (h : k' ≠ k) : dlookup (dinsert l k v) k' = dlookup l k' := by
  have hne : ¬ k = k' := fun e => h e.symm
  induction l with
  | nil => simp [dinsert, dlookup, hne]
  | cons p rest ih =>
    obtain ⟨k0, w⟩ := p
    by_cases h0 : k0 = k
    · subst h0
      simp [dinsert, dlookup, hne]
    · by_cases h1 : k0 = k' <;> simp [dinsert, dlookup, h0, h1, ih, h]

theorem dlookup_derase_self {α : Type} (l : List (String × α)) (k : String) :
    dlookup (derase l k) k = none := by
  induction l with
  | nil => simp [derase, dlookup]
  | cons p rest ih =>
    obtain ⟨k', w⟩ := p
    by_cases h : k' = k <;> simp [derase, dlookup, h, ih]

theorem dlookup_filter_some {α : Type} (l : List (String × α)) (k : String) (v : α)
    (p : String × α → Bool) (hl : dlookup l k = some v) (hp : p (k, v) = true) :
    dlookup (l.filter p) k = some v := by
  induction l with
  | nil => simp [dlookup] at hl
  | cons e rest ih =>
    obtain ⟨k', w⟩ := e
    by_cases h : k' = k
    · subst h
      simp [dlookup] at hl
      subst hl
      simp [List.filter, hp, dlookup]
    · simp [dlookup, h] at hl
      cases hpe : p (k', w) <;> simp [List.filter, hpe, dlookup, h, ih hl]

theorem dlookup_filter_none {α : Type} (l : List (String × α)) (k : String)
    (p : String × α → Bool) (hl : dlookup l k = none) :
    dlookup (l.filter p) k = none := by
  induction l with
  | nil => simp [List.filter, dlookup]
  | cons e rest ih =>
    obtain ⟨k', w⟩ := e
    by_cases h : k' = k
    · subst h; simp [dlookup] at hl
    · simp [dlookup, h] at hl
      cases hpe : p (k', w) <;> simp [List.filter, hpe, dlookup, h, ih hl]

/-! ## `normalize_asx_code` (pipeline.py lines 58-168)

The regular expressions of the source are compiled by hand into scanning
functions.  Each scanning function documents the regex it implements; the
greedy/backtracking behaviour of Python `re` on these particular patterns is
reproduced exactly (for each pattern the relevant character classes are
pairwise disjoint, so greedy maximal munch plus the word-boundary checks give
the same matches as the backtracking engine). -/

/-- `ASX_CODE_STOPWORDS` from pipeline.py, verbatim. -/
def ASX_CODE_STOPWORDS : List String :=
  ["A", "AN", "AND", "ASX", "AX", "ATTACH", "ATTACHED", "BODY", "CHART",
   "CHECK", "CODE", "COMPANY", "CREATE", "DAILY", "EMAIL", "FOR", "FINANCE",
   "GENERATE", "GRAPH", "IS", "MAIL", "OF", "PLEASE", "QUOTE", "REPORT",
   "SEND", "STOCK", "SUBJECT", "THE", "THIS", "TO", "TODAY", "TODAYS",
   "WITH", "YOUR", "YAHOO"]

def isStopword (l : List Char) : Bool := ASX_CODE_STOPWORDS.contains (String.mk l)

/-- `re.fullmatch(r"([A-Z0-9]{1,6})\.AX", upper)`: the whole string is a
1-6 character alphanumeric group followed by the literal `.AX`. -/
def dotAxMatch (u : List Char) : Option (List Char) :=
  let n := u.length
  if 4 ≤ n && n ≤ 9 then
    let t := u.take (n - 3)
    if u.drop (n - 3) = ['.', 'A', 'X'] && t.all isUpperAlnum then some t else none
  else none

/-- Case-insensitive literal prefix test (`pat` given lowercase). -/
def lcPrefix : List Char → List Char → Bool
  | [], _ => true
  | _ :: _, [] => false
  | p :: ps, c :: cs => p = pyToLower c && lcPrefix ps cs

/-- Length of the `https?://` prefix of `l` under `re.IGNORECASE`
(the greedy `s?` tries `https` first, as Python does). -/
def urlPrefixLen (l : List Char) : Option Nat :=
  if lcPrefix "https://".toList l then some 8
  else if lcPrefix "http://".toList l then some 7
  else none

/-- `re.search(r"https?://\S+", raw, flags=re.IGNORECASE)`: first position
whose prefix is `http(s)://` with at least one following non-space; the match
is the maximal non-space run from that position. -/
def findUrlMatch : List Char → Option (List Char)
  | [] => none
  | c :: cs =>
    match urlPrefixLen (c :: cs) with
    | some n =>
      match ((c :: cs).drop n).head? with
      | some c' =>
        if !isAsciiSpace c' then some ((c :: cs).takeWhile (fun x => !isAsciiSpace x))
        else findUrlMatch cs
      | none => findUrlMatch cs
    | none => findUrlMatch cs

/-- Scheme characters accepted by `urllib.parse` (`[A-Za-z0-9+.-]`). -/
def isSchemeChar (c : Char) : Bool :=
  isUpperAlpha c || isLowerAlpha c || isDigitChar c || c = '+' || c = '-' || c = '.'

/-- Drop a leading `scheme:` when present (the `urlsplit` scheme rule). -/
def schemeSplit (l : List Char) : List Char :=
  let pre := l.takeWhile (fun c => c ≠ ':')
  if pre.length > 0 && pre.length < l.length && pre.all isSchemeChar then
    l.drop (pre.length + 1)
  else l

/-- `urlparse` modelled as the generic `scheme://netloc/path?query#fragment`
split (see the file header for the stated scope).  The three components are
named functions so that each can be reasoned about separately. -/
def urlNetloc (u : List Char) : List Char :=
  let rest := schemeSplit u
  if rest.take 2 = ['/', '/'] then
    (rest.drop 2).takeWhile (fun c => c ≠ '/' && c ≠ '?' && c ≠ '#')
  else []

def urlAfterNetloc (u : List Char) : List Char :=
  let rest := schemeSplit u
  if rest.take 2 = ['/', '/'] then (rest.drop 2).drop (urlNetloc u).length
  else rest

def urlPath (u : List Char) : List Char :=
  ((urlAfterNetloc u).takeWhile (fun c => c ≠ '#')).takeWhile (fun c => c ≠ '?')

def urlQuery (u : List Char) : List Char :=
  let noFrag := (urlAfterNetloc u).takeWhile (fun c => c ≠ '#')
  noFrag.drop ((noFrag.takeWhile (fun c => c ≠ '?')).length + 1)

def urlsplitLite (u : List Char) : List Char × List Char × List Char :=
  (urlNetloc u, urlPath u, urlQuery u)

/-- One path segment of the URL branch: `cleaned = re.sub(r"[^A-Z0-9.]", "",
part.upper())`; if `cleaned` ends in `.AX`, the code before the suffix is
returned when it is 1-6 characters, not all digits and not a stopword. -/
def segCode (part : List Char) : Option (List Char) :=
  let cleaned := (part.map pyToUpper).filter isUpperAlnumDot
  if cleaned.length ≥ 3 && cleaned.drop (cleaned.length - 3) = ['.', 'A', 'X'] then
    let code := cleaned.take (cleaned.length - 3)
    if 1 ≤ code.length && code.length ≤ 6 && !pyIsDigit code && !isStopword code then
      some code
    else none
  else none

/-- Percent-decoding plus `+`→space of `urllib.parse.unquote_plus`, at ASCII
granularity (multi-byte UTF-8 recombination is not modelled; every decoded
byte becomes one character). -/
def hexVal (c : Char) : Option Nat :=
  if 48 ≤ c.toNat && c.toNat ≤ 57 then some (c.toNat - 48)
  else if 65 ≤ c.toNat && c.toNat ≤ 70 then some (c.toNat - 65 + 10)
  else if 97 ≤ c.toNat && c.toNat ≤ 102 then some (c.toNat - 97 + 10)
  else none

def unquotePlus : List Char → List Char
  | [] => []
  | '%' :: h1 :: h2 :: rest =>
    match hexVal h1, hexVal h2 with
    | some a, some b => Char.ofNat (a * 16 + b) :: unquotePlus rest
    | _, _ => '%' :: unquotePlus (h1 :: h2 :: rest)
  | '+' :: rest => ' ' :: unquotePlus rest
  | c :: rest => c :: unquotePlus rest

/-- `parse_qs(query)[key][0]`: the first field `key=value` (split on `&`,
value nonempty after decoding) for the given key, or `none`.  Mirrors
`(query.get(key) or [""])[0]` through the `Option`. -/
def parseQsFirst (query : List Char) (key : String) : Option (List Char) :=
  (splitOnChar '&' query).findSome? fun field =>
    if field.isEmpty then none
    else
      let name := field.takeWhile (fun c => c ≠ '=')
      if name.length = field.length then none
      else
        let value := unquotePlus (field.drop (name.length + 1))
        if value.isEmpty then none
        else if String.mk (unquotePlus name) = key then some value else none

/-- Query parameters `p` and `symbol` of the URL branch, same validity rule
as `segCode` applied to the decoded value. -/
def queryCode (query : List Char) : Option (List Char) :=
  ([ "p", "symbol" ] : List String).findSome? fun key =>
    let v := (parseQsFirst query key).getD []
    let value := (v.map pyToUpper).filter isUpperAlnumDot
    if value.length ≥ 3 && value.drop (value.length - 3) = ['.', 'A', 'X'] then
      let code := value.take (value.length - 3)
      if 1 ≤ code.length && code.length ≤ 6 && !pyIsDigit code && !isStopword code then
        some code
      else none
    else none

/-- The URL branch of `normalize_asx_code` (pipeline.py lines 122-144). -/
def urlExtract (raw : List Char) : Option (List Char) :=
  match findUrlMatch raw with
  | none => none
  | some m =>
    let u := pyStripChars ['.', ',', ';', ':', '!', '?', '"', '\''] m
    let (_, path, query) := urlsplitLite u
    let segs := (splitOnChar '/' path).filter (fun p => !p.isEmpty)
    match segs.findSome? segCode with
    | some c => some c
    | none => queryCode query

/-- Exact-case literal prefix length of `https?://` (the free-text URL sweep
`re.sub(r"https?://\S+", " ", upper)` is compiled without `re.IGNORECASE`,
so it matches the lowercase literal only). -/
def lowerUrlPrefix (l : List Char) : Bool :=
  "https://".toList.isPrefixOf l || "http://".toList.isPrefixOf l

/-- `re.sub(r"https?://\S+", " ", text)`, case-sensitive: each match (maximal
non-space run from a lowercase `http(s)://` prefix) is replaced by one space.
Structural recursion on a fuel initialised to the list length (every step
consumes at least one character, so the fuel never runs out; the fuel shape
keeps the function kernel-reducible). -/
def subUrlLowerAux : Nat → List Char → List Char
  | _, [] => []
  | 0, l => l
  | fuel + 1, c :: cs =>
    if lowerUrlPrefix (c :: cs) then
      let run := (c :: cs).takeWhile (fun x => !isAsciiSpace x)
      ' ' :: subUrlLowerAux fuel (cs.drop (run.length - 1))
    else c :: subUrlLowerAux fuel cs

def subUrlLower (l : List Char) : List Char := subUrlLowerAux l.length l

def emailLocalChar (c : Char) : Bool :=
  isUpperAlnum c || c = '.' || c = '_' || c = '%' || c = '+' || c = '-'

def emailDomainChar (c : Char) : Bool := isUpperAlnum c || c = '.' || c = '-'

/-- Backtracking of `[A-Z0-9.-]+\.[A-Z]{2,}` inside the maximal domain run
`m`: the give-back scan looks for the largest split `d ≥ 1` with `m[d] = '.'`
followed by at least two letters; returns `(d, length of the letter run)`. -/
def findDotSplit (m : List Char) : Nat → Option (Nat × Nat)
  | 0 => none
  | Nat.succ k =>
    let d := Nat.succ k
    if m.getD d ' ' = '.' then
      let tld := ((m.drop (d + 1)).takeWhile isUpperAlpha).length
      if 2 ≤ tld then some (d, tld) else findDotSplit m k
    else findDotSplit m k

/-- Length of the match of `[A-Z0-9._%+-]+@[A-Z0-9.-]+\.[A-Z]{2,}` starting
at the head of `l` (leftmost-longest as the Python engine produces it). -/
def emailMatchLen (l : List Char) : Option Nat :=
  let loc := l.takeWhile emailLocalChar
  if loc.isEmpty then none
  else
    match l.drop loc.length with
    | '@' :: rest =>
      let m := rest.takeWhile emailDomainChar
      match findDotSplit m (m.length - 1) with
      | some (d, tld) => some (loc.length + 1 + d + 1 + tld)
      | none => none
    | _ => none

/-- `re.sub(r"[A-Z0-9._%+-]+@[A-Z0-9.-]+\.[A-Z]{2,}", " ", text)` (same fuel
shape as `subUrlLowerAux`). -/
def subEmailAux : Nat → List Char → List Char
  | _, [] => []
  | 0, l => l
  | fuel + 1, c :: cs =>
    match emailMatchLen (c :: cs) with
    | some n => ' ' :: subEmailAux fuel (cs.drop (n - 1))
    | none => c :: subEmailAux fuel cs

def subEmail (l : List Char) : List Char := subEmailAux l.length l

/-- `\s*` — maximal whitespace munch (no backtracking is needed: in every
pattern below the element after `\s*`/`\s+` never matches a space). -/
def skipSpaces (l : List Char) : List Char := l.dropWhile isAsciiSpace

def nextNotWord (l : List Char) : Bool :=
  match l.head? with
  | none => true
  | some c => !isWordChar c

/-- The capture group `([A-Z0-9]{2,6})\b` at the head of `l`: the maximal
alphanumeric run, accepted when its length is 2-6 and the following character
(if any) is not a word character (all shorter greedy attempts fail `\b`). -/
def groupAt (l : List Char) : Option (List Char) :=
  let run := l.takeWhile isUpperAlnum
  if 2 ≤ run.length && run.length ≤ 6 && nextNotWord (l.drop run.length) then
    some run
  else none

def matchLit (lit : List Char) (l : List Char) : Option (List Char) :=
  if lit.isPrefixOf l then some (l.drop lit.length) else none

/-- `\bASX\s*[:\-]\s*([A-Z0-9]{2,6})\b` at the head of `l` (the `\b` before
`ASX` is checked by the caller). -/
def markerAt1 (l : List Char) : Option (List Char) := do
  let r1 ← matchLit "ASX".toList l
  match skipSpaces r1 with
  | c :: cs => if c = ':' || c = '-' then groupAt (skipSpaces cs) else none
  | [] => none

/-- `\bASX\s+([A-Z0-9]{2,6})\b` at the head of `l`. -/
def markerAt2 (l : List Char) : Option (List Char) := do
  let r1 ← matchLit "ASX".toList l
  match r1 with
  | c :: _ => if isAsciiSpace c then groupAt (skipSpaces r1) else none
  | [] => none

/-- `\bFOR\s+([A-Z0-9]{2,6})\b` at the head of `l`. -/
def markerAt3 (l : List Char) : Option (List Char) := do
  let r1 ← matchLit "FOR".toList l
  match r1 with
  | c :: _ => if isAsciiSpace c then groupAt (skipSpaces r1) else none
  | [] => none

/-- `\b(?:CODE|TICKER|COMPANY)\s*[:\-]?\s*([A-Z0-9]{2,6})\b` at the head of
`l`; when the optional punctuation is absent the group is matched at the end
of the first whitespace run (all backtracking alternatives fail, see the
section comment). -/
def markerAt4 (l : List Char) : Option (List Char) := do
  let r1 ← matchLit "CODE".toList l <|> matchLit "TICKER".toList l <|>
           matchLit "COMPANY".toList l
  match skipSpaces r1 with
  | c :: cs => if c = ':' || c = '-' then groupAt (skipSpaces cs) else groupAt (c :: cs)
  | [] => none

/-- `re.search` driver: try `f` at every position whose previous character is
not a word character (the leading `\b` of each marker pattern). -/
def searchMarker (f : List Char → Option (List Char)) : List Char → Bool → Option (List Char)
  | [], _ => none
  | c :: cs, prevWord =>
    match (if prevWord then none else f (c :: cs)) with
    | some g => some g
    | none => searchMarker f cs (isWordChar c)

/-- Validation applied to a marker match:
`code = re.sub(r"[^A-Z0-9]", "", match.group(1))` plus the length /
digit / stopword guards (pipeline.py lines 157-159). -/
def markerGroupCode (g : List Char) : Option (List Char) :=
  let code := g.filter isUpperAlnum
  if 2 ≤ code.length && code.length ≤ 6 && !pyIsDigit code && !isStopword code then
    some code
  else none

/-- The marker-pattern loop (pipeline.py lines 149-159): patterns are tried in
order; for each, only its first match is considered. -/
def markerExtract (t : List Char) : Option (List Char) :=
  ([markerAt1, markerAt2, markerAt3, markerAt4] :
      List (List Char → Option (List Char))).findSome? fun f =>
    match searchMarker f t false with
    | some g => markerGroupCode g
    | none => none

/-- One candidate of `re.findall(r"\b[A-Z][A-Z0-9]{1,5}\b", t)` at the head
of `l` (leading `\b` checked by the caller). -/
def tokenAt (l : List Char) : Option (List Char) :=
  match l with
  | c :: _ =>
    if isUpperAlpha c then
      let run := l.takeWhile isUpperAlnum
      if 2 ≤ run.length && run.length ≤ 6 && nextNotWord (l.drop run.length) then
        some run
      else none
    else none
  | [] => none

/-- The final token loop (pipeline.py lines 161-166): the first `findall`
token that is neither a stopword nor all digits.  Scanning one character at a
time is faithful: no position strictly inside a token can start a match
(its previous character is a word character, so `\b` fails). -/
def tokenExtract : List Char → Bool → Option (List Char)
  | [], _ => none
  | c :: cs, prevWord =>
    match (if prevWord then none else tokenAt (c :: cs)) with
    | some tok =>
      if isStopword tok || pyIsDigit tok then tokenExtract cs (isWordChar c)
      else some tok
    | none => tokenExtract cs (isWordChar c)

/-- `normalize_asx_code` on the character list (pipeline.py lines 102-168). -/
def normCore (l : List Char) : Option (List Char) :=
  if l.isEmpty then none
  else
    let raw := pyStrip l
    if raw.isEmpty then none
    else
      let upper := raw.map pyToUpper
      let byDotAx : Option (List Char) :=
        match dotAxMatch upper with
        | some t => if pyIsDigit t then none else some t
        | none => none
      match byDotAx with
      | some t => some t
      | none =>
        if 2 ≤ upper.length && upper.length ≤ 6 && upper.all isUpperAlnum &&
           !pyIsDigit upper then
          some upper
        else
          match urlExtract raw with
          | some t => some t
          | none =>
            let cleaned := subEmail (subUrlLower upper)
            match markerExtract cleaned with
            | some t => some t
            | none => tokenExtract cleaned false

def normalize_asx_code (s : String) : Option String := (normCore s.toList).map String.mk

/-- `normalize_asx_code` on `str | None` arguments (`if not asx_code` also
rejects `None`). -/
def normalizeOpt : Option String → Option String
  | none => none
  | some s => normalize_asx_code s

/-! ## Soundness of the normalizer output shape

Every code returned by `normCore` has at most 6 characters, consists of
uppercase alphanumerics and dots only, and is not all-digits.  This is the
basis of the idempotence analysis (claim C3). -/

def GoodCode (c : List Char) : Prop :=
  c.length ≤ 6 ∧ (∀ x ∈ c, isUpperAlnumDot x = true) ∧ pyIsDigit c = false

theorem isUpperAlnum_isUpperAlnumDot {x : Char} (h : isUpperAlnum x = true) :
    isUpperAlnumDot x = true := by
  simp [isUpperAlnumDot, h]

theorem dotAxMatch_sound {u t : List Char} (h : dotAxMatch u = some t) :
    t.length ≤ 6 ∧ ∀ x ∈ t, isUpperAlnum x = true := by
  unfold dotAxMatch at h
  dsimp only at h
  split at h
  case isTrue hn =>
    split at h
    case isTrue hc =>
      simp only [Bool.and_eq_true, decide_eq_true_eq] at hn hc
      injection h with h
      subst h
      refine ⟨by simp [List.length_take]; omega, fun x hx => ?_⟩
      exact List.all_eq_true.mp hc.2 x hx
    case isFalse => exact absurd h (by simp)
  case isFalse => exact absurd h (by simp)

theorem segCode_sound {part c : List Char} (h : segCode part = some c) : GoodCode c := by
  unfold segCode at h
  dsimp only at h
  split at h
  case isTrue h1 =>
    split at h
    case isTrue h2 =>
      simp only [Bool.and_eq_true, decide_eq_true_eq, Bool.not_eq_true'] at h2
      injection h with h
      subst h
      refine ⟨by omega, fun x hx => ?_, h2.1.2⟩
      have hx' := List.take_subset _ _ hx
      exact (List.mem_filter.mp hx').2
    case isFalse => exact absurd h (by simp)
  case isFalse => exact absurd h (by simp)

theorem queryCode_sound {q c : List Char} (h : queryCode q = some c) : GoodCode c := by
  unfold queryCode at h
  dsimp only at h
  obtain ⟨key, _, hk⟩ := List.exists_of_findSome?_eq_some h
  split at hk
  case isTrue h1 =>
    split at hk
    case isTrue h2 =>
      simp only [Bool.and_eq_true, decide_eq_true_eq, Bool.not_eq_true'] at h2
      injection hk with hk
      subst hk
      refine ⟨by omega, fun x hx => ?_, h2.1.2⟩
      have hx' := List.take_subset _ _ hx
      exact (List.mem_filter.mp hx').2
    case isFalse => exact absurd hk (by simp)
  case isFalse => exact absurd hk (by simp)

theorem urlExtract_sound {raw c : List Char} (h : urlExtract raw = some c) : GoodCode c := by
  unfold urlExtract at h
  dsimp only at h
  split at h
  case h_1 => exact absurd h (by simp)
  case h_2 =>
    split at h
    case h_1 heq =>
      injection h with h
      subst h
      obtain ⟨seg, _, hseg⟩ := List.exists_of_findSome?_eq_some heq
      exact segCode_sound hseg
    case h_2 => exact queryCode_sound h

theorem markerGroupCode_sound {g c : List Char} (h : markerGroupCode g = some c) :
    GoodCode c := by
  unfold markerGroupCode at h
  dsimp only at h
  split at h
  case isTrue h1 =>
    simp only [Bool.and_eq_true, decide_eq_true_eq, Bool.not_eq_true'] at h1
    injection h with h
    subst h
    exact ⟨h1.1.1.2, fun x hx => isUpperAlnum_isUpperAlnumDot (List.mem_filter.mp hx).2,
      h1.1.2⟩
  case isFalse => exact absurd h (by simp)

theorem markerExtract_sound {t c : List Char} (h : markerExtract t = some c) :
    GoodCode c := by
  unfold markerExtract at h
  obtain ⟨f, _, hf⟩ := List.exists_of_findSome?_eq_some h
  split at hf
  case h_1 => exact markerGroupCode_sound hf
  case h_2 => exact absurd hf (by simp)

theorem tokenAt_sound {l tok : List Char} (h : tokenAt l = some tok) :
    tok.length ≤ 6 ∧ ∀ x ∈ tok, isUpperAlnum x = true := by
  unfold tokenAt at h
  split at h
  case h_1 =>
    split at h
    case isTrue =>
      dsimp only at h
      split at h
      case isTrue h2 =>
        simp only [Bool.and_eq_true, decide_eq_true_eq] at h2
        injection h with h
        subst h
        exact ⟨h2.1.2, fun x hx => List.mem_takeWhile_imp hx⟩
      case isFalse => exact absurd h (by simp)
    case isFalse => exact absurd h (by simp)
  case h_2 => exact absurd h (by simp)

theorem tokenExtract_sound {l : List Char} {b : Bool} {tok : List Char}
    (h : tokenExtract l b = some tok) :
    tok.length ≤ 6 ∧ (∀ x ∈ tok, isUpperAlnum x = true) ∧ pyIsDigit tok = false := by
  induction l generalizing b with
  | nil => simp [tokenExtract] at h
  | cons c cs ih =>
    unfold tokenExtract at h
    split at h
    case h_1 heq =>
      split at h
      case isTrue => exact ih h
      case isFalse hflt =>
        injection h with h
        subst h
        cases b with
        | true => simp at heq
        | false =>
          simp only [if_false, Bool.false_eq_true] at heq
          have hs := tokenAt_sound heq
          simp only [Bool.or_eq_true, not_or, Bool.not_eq_true] at hflt
          exact ⟨hs.1, hs.2, hflt.2⟩
    case h_2 => exact ih h

theorem normCore_sound {l c : List Char} (h : normCore l = some c) : GoodCode c := by
  unfold normCore at h
  dsimp only at h
  split at h
  case isTrue => exact absurd h (by simp)
  case isFalse =>
    split at h
    case isTrue => exact absurd h (by simp)
    case isFalse =>
      split at h
      case h_1 hdot =>
        -- the `.AX` suffix branch
        injection h with h
        subst h
        split at hdot
        case h_1 hm =>
          split at hdot
          case isTrue => exact absurd hdot (by simp)
          case isFalse hnd =>
            injection hdot with hdot
            subst hdot
            have hs := dotAxMatch_sound hm
            exact ⟨hs.1, fun x hx => isUpperAlnum_isUpperAlnumDot (hs.2 x hx),
              by simpa using hnd⟩
        case h_2 => exact absurd hdot (by simp)
      case h_2 =>
        split at h
        case isTrue hclean =>
          simp only [Bool.and_eq_true, decide_eq_true_eq, Bool.not_eq_true'] at hclean
          injection h with h
          subst h
          exact ⟨hclean.1.1.2, fun x hx =>
            isUpperAlnum_isUpperAlnumDot (List.all_eq_true.mp hclean.1.2 x hx),
            hclean.2⟩
        case isFalse =>
          split at h
          case h_1 => injection h with h; subst h; exact urlExtract_sound (by assumption)
          case h_2 =>
            split at h
            case h_1 => injection h with h; subst h; exact markerExtract_sound (by assumption)
            case h_2 =>
              have hs := tokenExtract_sound h
              exact ⟨hs.1, fun x hx => isUpperAlnum_isUpperAlnumDot (hs.2.1 x hx), hs.2.2⟩

/-! ## Idempotence of the normalizer (claims C3, C4) -/

theorem dropWhile_eq_self_of_all {p : Char → Bool} {l : List Char}
    (h : ∀ x ∈ l, p x = false) : l.dropWhile p = l := by
  cases l with
  | nil => rfl
  | cons c cs => simp [List.dropWhile_cons, h c (by simp)]

theorem pyStrip_eq_self {l : List Char} (h : ∀ x ∈ l, isAsciiSpace x = false) :
    pyStrip l = l := by
  unfold pyStrip
  rw [dropWhile_eq_self_of_all h,
    dropWhile_eq_self_of_all (fun x hx => h x (List.mem_reverse.mp hx)),
    List.reverse_reverse]

theorem map_eq_self_of_fixes {f : Char → Char} {l : List Char}
    (h : ∀ x ∈ l, f x = x) : l.map f = l := by
  induction l with
  | nil => rfl
  | cons c cs ih => simp [h c (by simp), ih (fun x hx => h x (by simp [hx]))]

theorem pyToUpper_eq_self {c : Char} (h : isUpperAlnum c = true) : pyToUpper c = c := by
  simp only [isUpperAlnum, isUpperAlpha, isDigitChar, Bool.or_eq_true, Bool.and_eq_true,
    decide_eq_true_eq] at h
  unfold pyToUpper isLowerAlpha
  split
  case isTrue h1 =>
    simp only [Bool.and_eq_true, decide_eq_true_eq] at h1
    omega
  case isFalse => rfl

theorem not_space_of_isUpperAlnum {c : Char} (h : isUpperAlnum c = true) :
    isAsciiSpace c = false := by
  simp only [isUpperAlnum, isUpperAlpha, isDigitChar, Bool.or_eq_true, Bool.and_eq_true,
    decide_eq_true_eq] at h
  simp only [isAsciiSpace, Bool.or_eq_false_iff, decide_eq_false_iff_not]
  omega

theorem dotAxMatch_eq_none_of_no_dot {u : List Char} (h : '.' ∉ u) :
    dotAxMatch u = none := by
  unfold dotAxMatch
  dsimp only
  split
  case isTrue =>
    split
    case isTrue hc =>
      simp only [Bool.and_eq_true, decide_eq_true_eq] at hc
      exfalso
      have hmem : '.' ∈ u.drop (u.length - 3) := by rw [hc.1]; simp
      exact h (List.drop_subset _ _ hmem)
    case isFalse => rfl
  case isFalse => rfl

/-- C3 (counterexample).  The claimed idempotence fails on the code: the
`.AX`-suffix branch accepts single-character codes, which the re-normalization
rejects (`normalize("B.AX") = "B"` but `normalize("B") = None`), and the URL
branch can return codes containing `.`, which re-normalize to a different
code (`"AB.CD"` re-normalizes to `"AB"`). -/
theorem normalize_idem_counterexample :
    normalize_asx_code "B.AX" = some "B" ∧ normalize_asx_code "B" = none ∧
    normalize_asx_code "https://au.finance.yahoo.com/quote/AB.CD.AX/" = some "AB.CD" ∧
    normalize_asx_code "AB.CD" = some "AB" := by
  refine ⟨by decide, by decide, by decide, by decide⟩

/-- C3 (amended).  `normalize_asx_code` is idempotent on every output that
has at least two characters and contains no dot: such an output re-normalizes
to itself through the clean-ticker branch. -/
theorem normalize_idem_amended (x c : String)
    (h : normalize_asx_code x = some c) (hlen : 2 ≤ c.length)
    (hdot : '.' ∉ c.toList) :
    normalize_asx_code c = some c := by
  unfold normalize_asx_code at h ⊢
  cases hc : normCore x.toList with
  | none => rw [hc] at h; simp at h
  | some c0 =>
    rw [hc] at h
    simp only [Option.map_some'] at h
    have h' : String.mk c0 = c := by injection h
    have hlist : c.toList = c0 := by rw [← h']; rfl
    have hgood := normCore_sound hc
    obtain ⟨hle6, hchar, hdig⟩ := hgood
    have hAl : ∀ y ∈ c0, isUpperAlnum y = true := by
      intro y hy
      have := hchar y hy
      simp only [isUpperAlnumDot, Bool.or_eq_true, decide_eq_true_eq] at this
      rcases this with hok | hdoteq
      · exact hok
      · exact absurd (hdoteq ▸ hy) (hlist ▸ hdot)
    have hlen0 : 2 ≤ c0.length := by
      rw [← hlist]
      exact hlen
    have hne0 : c0.isEmpty = false := by
      cases c0 with
      | nil => simp at hlen0
      | cons a as => rfl
    have hstrip : pyStrip c0 = c0 :=
      pyStrip_eq_self (fun y hy => not_space_of_isUpperAlnum (hAl y hy))
    have hupper : c0.map pyToUpper = c0 :=
      map_eq_self_of_fixes (fun y hy => pyToUpper_eq_self (hAl y hy))
    have hdotax : dotAxMatch c0 = none := dotAxMatch_eq_none_of_no_dot (hlist ▸ hdot)
    have hnc : normCore c0 = some c0 := by
      simp only [normCore, hne0, Bool.false_eq_true, if_false, hstrip, hupper, hdotax]
      simp [hlen0, hle6, hdig, List.all_eq_true.mpr hAl]
    rw [hlist, hnc]
    simp [h']

/-- C3 (witness).  The amended idempotence applied at the concrete input
`"bhp"`, whose normalization `"BHP"` is 3 characters long and dot-free. -/
theorem normalize_idem_witness : normalize_asx_code "BHP" = some "BHP" :=
  normalize_idem_amended "bhp" "BHP" (by decide) (by decide) (by decide)

/-- C4.  The normalizer's reference behaviour on the spec's example inputs,
including that every token of `"send the daily report"` is a stopword. -/
theorem normalize_reference_examples :
    normalize_asx_code "BHP" = some "BHP" ∧
    normalize_asx_code "bhp.ax" = some "BHP" ∧
    normalize_asx_code "https://au.finance.yahoo.com/quote/CBA.AX/" = some "CBA" ∧
    normalize_asx_code "please send me the report for csl" = some "CSL" ∧
    (normalize_asx_code "send the daily report" = none ∧
      isStopword "SEND".toList = true ∧ isStopword "THE".toList = true ∧
      isStopword "DAILY".toList = true ∧ isStopword "REPORT".toList = true) := by
  refine ⟨by decide, by decide, by decide, by decide, by decide, by decide, by decide,
    by decide, by decide⟩

/-! ## The request coordinator (`server.py`, claims C1, C2, C5, C6)

`create_asx_report` is an `async` handler; code between `await` points runs
atomically under the asyncio event loop.  The handler is embedded as the
sequence of its atomic sections over an explicit state record:

* `admitStep` — from function entry to the end of the `_IN_FLIGHT_LOCK`
  section (entry, prune, success-cache check, failure-cache check, in-flight
  check / `asyncio.create_task`).  The only `await` inside this span is the
  lock acquisition, which cannot interleave with another admission for the
  same map by construction of the single lock.
* `ownerPopStep` — the owning caller's `_IN_FLIGHT.pop` section after the
  task settles (lines 165-166 / 171-172).
* `ownerSuccessWriteStep` / `ownerFailureWriteStep` — the cache updates that
  follow (lines 167 and 173-174); they are separate steps from the pop,
  reflecting the documented race window between in-flight removal and the
  cache write.

`started` is ghost instrumentation recording each `asyncio.create_task` call
(i.e. each pipeline execution); `time.monotonic()` values are supplied as
`Nat` parameters. -/

/-- A result payload (the `dict[str, str]` returned by `run_asx_report`). -/
abbrev Payload := List (String × String)

structure CoordState where
  recentResults : List (String × (Nat × Payload))
  recentErrors : List (String × (Nat × String))
  inFlight : List (String × Nat)
  nextTaskId : Nat
  started : List Nat
deriving DecidableEq, Repr

/-- `_canonical_ticker` (server.py line 28). -/
def canonicalTicker (asxCode : String) : String := (normalize_asx_code asxCode).getD "HUB"

/-- `_canonical_recipient` (server.py line 32): strip, lower, default. -/
def canonicalRecipient (recipient : String) : String :=
  let value := String.mk ((pyStrip recipient.toList).map pyToLower)
  if value = "" then "test@gmail.com" else value

/-- `_request_key` (server.py line 37). -/
def requestKey (asxCode recipient : String) (sendEmail : Bool) : String :=
  canonicalTicker asxCode ++ "|" ++ canonicalRecipient recipient ++ "|" ++
    (if sendEmail then "true" else "false")

/-- `_prune_cache` (server.py lines 63-76): entries older than twice the
window are swept; a zero window clears the cache. -/
def pruneCache (st : CoordState) (now successWindow errorWindow : Nat) : CoordState :=
  { st with
    recentResults :=
      if 0 < successWindow then
        st.recentResults.filter (fun e => !(now - e.2.1 > successWindow * 2))
      else [],
    recentErrors :=
      if 0 < errorWindow then
        st.recentErrors.filter (fun e => !(now - e.2.1 > errorWindow * 2))
      else [] }

inductive AdmitOutcome where
  | cacheHit (payload : Payload)
  | suppressed (msg : String)
  | proceed (owns : Bool) (task : Nat)
deriving DecidableEq, Repr

/-- The admission span of `create_asx_report` (server.py lines 117-159):
prune, consult the success cache, consult the failure cache, then join or
register an in-flight execution under the lock. -/
def admitStep (st : CoordState) (key : String) (now successWindow errorWindow : Nat) :
    AdmitOutcome × CoordState :=
  let st1 := pruneCache st now successWindow errorWindow
  let successHit : Option Payload :=
    match dlookup st1.recentResults key with
    | some (ts, payload) =>
      if 0 < successWindow && now - ts ≤ successWindow then some payload else none
    | none => none
  match successHit with
  | some payload => (.cacheHit payload, st1)
  | none =>
    let errorHit : Option String :=
      match dlookup st1.recentErrors key with
      | some (ts, msg) =>
        if 0 < errorWindow && now - ts ≤ errorWindow then some msg else none
      | none => none
    match errorHit with
    | some msg =>
      (.suppressed ("Skipped duplicate retry after recent failure: " ++ msg), st1)
    | none =>
      match dlookup st1.inFlight key with
      | some task => (.proceed false task, st1)
      | none =>
        let task := st1.nextTaskId
        (.proceed true task,
         { st1 with
           inFlight := dinsert st1.inFlight key task,
           nextTaskId := task + 1,
           started := st1.started ++ [task] })

/-- The owner's `_IN_FLIGHT.pop(request_key, None)` section (both the success
and the failure continuation perform it first, under the lock). -/
def ownerPopStep (st : CoordState) (key : String) : CoordState :=
  { st with inFlight := derase st.inFlight key }

/-- Success continuation of the owner (server.py lines 173-174):
`_RECENT_ERRORS.pop(request_key, None)` then
`_RECENT_RESULTS[request_key] = (time.monotonic(), dict(result))`. -/
def ownerSuccessWriteStep (st : CoordState) (key : String) (now : Nat)
    (result : Payload) : CoordState :=
  { st with
    recentErrors := derase st.recentErrors key,
    recentResults := dinsert st.recentResults key (now, result) }

/-- Failure continuation of the owner (server.py line 167):
`_RECENT_ERRORS[request_key] = (time.monotonic(), str(exc))` — the success
cache is left untouched. -/
def ownerFailureWriteStep (st : CoordState) (key : String) (now : Nat)
    (msg : String) : CoordState :=
  { st with recentErrors := dinsert st.recentErrors key (now, msg) }

/-- The dedup annotation (`{**result, "deduplicated": ..., "dedupe_reason":
..., "dedupe_window_seconds": ...}`): a dict merge that overwrites the three
annotation keys and keeps everything else. -/
def annotate (p : Payload) (dedup : Bool) (reason : String) (window : Nat) : Payload :=
  dinsert (dinsert (dinsert p "deduplicated" (if dedup then "true" else "false"))
    "dedupe_reason" reason) "dedupe_window_seconds" (toString window)

/-- The value returned to a caller that hit the success cache
(server.py lines 131-136). -/
def cacheHitResult (p : Payload) (successWindow : Nat) : Payload :=
  annotate p true "recent-cache" successWindow

/-- The value returned to the owning caller on success (lines 175-180). -/
def ownerResult (p : Payload) (successWindow : Nat) : Payload :=
  annotate p false "none" successWindow

/-- The value returned to an attached (non-owning) caller (lines 182-187). -/
def attachedResult (p : Payload) (successWindow : Nat) : Payload :=
  annotate p true "in-flight" successWindow

/-- What the handler returns without running the pipeline: `some (.ok r)` for
a cache hit, `some (.error e)` for a suppressed retry, `none` when the call
proceeds to an execution. -/
def admitOutcomeResult (o : AdmitOutcome) (successWindow : Nat) :
    Option (Except String Payload) :=
  match o with
  | .cacheHit p => some (.ok (cacheHitResult p successWindow))
  | .suppressed msg => some (.error msg)
  | .proceed _ _ => none

/-! ## Coordinator lemmas -/

theorem isPrefixOf_self (l : List Char) : l.isPrefixOf l = true := by
  induction l with
  | nil => rfl
  | cons c cs ih => simp [List.isPrefixOf, ih]

theorem containsSeq_self (l : List Char) : containsSeq l l = true := by
  cases l with
  | nil => rfl
  | cons c cs => simp [containsSeq, isPrefixOf_self]

theorem containsSeq_append_left (sub pre l : List Char)
    (h : containsSeq sub l = true) : containsSeq sub (pre ++ l) = true := by
  induction pre with
  | nil => simpa using h
  | cons c cs ih =>
    simp only [List.cons_append, containsSeq, Bool.or_eq_true]
    exact Or.inr ih

theorem containsStr_append_self (pre msg : String) :
    containsStr msg (pre ++ msg) = true := by
  unfold containsStr
  have : (pre ++ msg).toList = pre.toList ++ msg.toList := by
    simp [String.toList, String.data_append]
  rw [this]
  exact containsSeq_append_left _ _ _ (containsSeq_self _)

theorem dlookup_eq_none_of_not_mem_keys {α : Type} (l : List (String × α)) (k : String)
    (h : k ∉ l.map Prod.fst) : dlookup l k = none := by
  induction l with
  | nil => rfl
  | cons e rest ih =>
    obtain ⟨k', w⟩ := e
    simp only [List.map_cons, List.mem_cons, not_or] at h
    have hne : ¬ k' = k := fun e => h.1 e.symm
    simp [dlookup, hne, ih h.2]

theorem dlookup_filter_nodup {α : Type} (l : List (String × α)) (k : String) (v : α)
    (p : String × α → Bool) (hnd : (l.map Prod.fst).Nodup) (hl : dlookup l k = some v) :
    dlookup (l.filter p) k = if p (k, v) then some v else none := by
  induction l with
  | nil => simp [dlookup] at hl
  | cons e rest ih =>
    obtain ⟨k', w⟩ := e
    simp only [List.map_cons, List.nodup_cons] at hnd
    by_cases h : k' = k
    · subst h
      simp only [dlookup, if_pos rfl] at hl
      injection hl with hl
      rw [← hl]
      have hrest : dlookup rest k' = none :=
        dlookup_eq_none_of_not_mem_keys rest k' hnd.1
      cases hp : p (k', w) <;>
        simp [List.filter, hp, dlookup, dlookup_filter_none _ _ _ hrest]
    · simp only [dlookup, if_neg h] at hl
      cases hp2 : p (k', w) <;> simp [List.filter, hp2, dlookup, h, ih hnd.2 hl]

theorem mem_of_dlookup_some {α : Type} (l : List (String × α)) (k : String) (v : α)
    (h : dlookup l k = some v) : (k, v) ∈ l := by
  induction l with
  | nil => simp [dlookup] at h
  | cons e rest ih =>
    obtain ⟨k0, w⟩ := e
    by_cases hk : k0 = k
    · subst hk
      simp only [dlookup, if_pos rfl] at h
      injection h with h
      subst h
      exact List.mem_cons_self _ _
    · simp only [dlookup, if_neg hk] at h
      exact List.mem_cons_of_mem _ (ih h)

theorem annotate_reason (p : Payload) (d : Bool) (reason : String) (w : Nat) :
    dlookup (annotate p d reason w) "dedupe_reason" = some reason := by
  unfold annotate
  rw [dlookup_dinsert_ne _ _ _ _ (by decide), dlookup_dinsert_self]

theorem annotate_dedup (p : Payload) (d : Bool) (reason : String) (w : Nat) :
    dlookup (annotate p d reason w) "deduplicated" =
      some (if d then "true" else "false") := by
  unfold annotate
  rw [dlookup_dinsert_ne _ _ _ _ (by decide), dlookup_dinsert_ne _ _ _ _ (by decide),
    dlookup_dinsert_self]

theorem annotate_window (p : Payload) (d : Bool) (reason : String) (w : Nat) :
    dlookup (annotate p d reason w) "dedupe_window_seconds" = some (toString w) := by
  unfold annotate
  rw [dlookup_dinsert_self]

theorem annotate_other (p : Payload) (d : Bool) (reason : String) (w : Nat) (k : String)
    (h1 : k ≠ "deduplicated") (h2 : k ≠ "dedupe_reason")
    (h3 : k ≠ "dedupe_window_seconds") :
    dlookup (annotate p d reason w) k = dlookup p k := by
  unfold annotate
  rw [dlookup_dinsert_ne _ _ _ _ h3, dlookup_dinsert_ne _ _ _ _ h2,
    dlookup_dinsert_ne _ _ _ _ h1]

/-- C6.  A call whose request identity has a success-cache entry within the
success window returns the cached payload annotated
`deduplicated=true, dedupe_reason="recent-cache", dedupe_window_seconds=⟨the
configured window⟩`, does not start a pipeline execution, and — before the
caches are consulted — lazily sweeps every cache entry older than twice its
respective window. -/
theorem recent_cache_hit_no_execution
    (st : CoordState) (key : String) (now ts successWindow errorWindow : Nat)
    (p : Payload)
    (hsw : 0 < successWindow)
    (hts : dlookup st.recentResults key = some (ts, p))
    (hwin : now - ts ≤ successWindow) :
    (admitStep st key now successWindow errorWindow).1 = .cacheHit p ∧
    admitOutcomeResult (admitStep st key now successWindow errorWindow).1
      successWindow = some (.ok (cacheHitResult p successWindow)) ∧
    dlookup (cacheHitResult p successWindow) "dedupe_reason" = some "recent-cache" ∧
    dlookup (cacheHitResult p successWindow) "deduplicated" = some "true" ∧
    dlookup (cacheHitResult p successWindow) "dedupe_window_seconds" =
      some (toString successWindow) ∧
    (admitStep st key now successWindow errorWindow).2.started = st.started ∧
    (admitStep st key now successWindow errorWindow).2.inFlight = st.inFlight ∧
    (∀ e ∈ st.recentResults,
      (e ∈ (pruneCache st now successWindow errorWindow).recentResults ↔
        ¬ now - e.2.1 > successWindow * 2)) ∧
    (∀ e ∈ st.recentErrors,
      (e ∈ (pruneCache st now successWindow errorWindow).recentErrors ↔
        0 < errorWindow ∧ ¬ now - e.2.1 > errorWindow * 2)) := by
  have hkept : (!(now - ts > successWindow * 2)) = true := by
    simp only [Bool.not_eq_true', decide_eq_false_iff_not, gt_iff_lt, not_lt]
    omega
  have hlook : dlookup (pruneCache st now successWindow errorWindow).recentResults key =
      some (ts, p) := by
    simp only [pruneCache]
    rw [if_pos hsw]
    exact dlookup_filter_some _ _ _ _ hts hkept
  have hstep : admitStep st key now successWindow errorWindow =
      (.cacheHit p, pruneCache st now successWindow errorWindow) := by
    unfold admitStep
    dsimp only
    rw [hlook]
    simp [hsw, hwin]
  refine ⟨by rw [hstep], by rw [hstep]; rfl, annotate_reason p true _ _,
    by rw [show dlookup (cacheHitResult p successWindow) "deduplicated" =
        some (if true then "true" else "false") from annotate_dedup p true _ _]; rfl,
    annotate_window p true _ _, by rw [hstep]; simp [pruneCache], by rw [hstep]; rfl,
    ?_, ?_⟩
  · intro e he
    simp only [pruneCache, if_pos hsw, List.mem_filter]
    simp [he]
  · intro e he
    by_cases hew : 0 < errorWindow
    · simp only [pruneCache, if_pos hew, List.mem_filter]
      simp [he, hew]
    · simp only [pruneCache, if_neg hew]
      simp [hew]

/-- C6 (witness): the theorem applied at a concrete state with a 10-second-old
entry and a 90-second window. -/
theorem recent_cache_hit_witness :
    (admitStep ⟨[("k", (10, [("pdf_path", "/tmp/a.pdf")]))], [], [], 0, []⟩
        "k" 50 90 25).1 = .cacheHit [("pdf_path", "/tmp/a.pdf")] :=
  (recent_cache_hit_no_execution _ "k" 50 10 90 25 _ (by decide) (by decide)
    (by decide)).1

/-- C5.  A call whose identity has a failure-cache entry within the failure
window — and no applicable success-cache entry: every success entry stored
under the identity fails the hit condition (the success window is disabled or
the entry is older than it), so a stale out-of-window success entry may still
be cached — raises the distinct duplicate-retry error whose text embeds the
prior failure detail, without starting an execution and without ever producing
a success payload; once the failure window has elapsed
(`errorWindow < now2 - ts`), a repeated call at a later monotonic time (with
the in-flight map free for the key and the failure cache holding one entry
per key, as the Python dict guarantees) registers a fresh pipeline
execution. -/
theorem failure_window_suppression
    (st : CoordState) (key : String) (now ts successWindow errorWindow : Nat)
    (msg : String)
    (hew : 0 < errorWindow)
    (hs : ∀ t p, (key, (t, p)) ∈ st.recentResults →
      (0 < successWindow && now - t ≤ successWindow) = false)
    (he : dlookup st.recentErrors key = some (ts, msg))
    (hwin : now - ts ≤ errorWindow) :
    (admitStep st key now successWindow errorWindow).1 =
      .suppressed ("Skipped duplicate retry after recent failure: " ++ msg) ∧
    admitOutcomeResult (admitStep st key now successWindow errorWindow).1
        successWindow =
      some (.error ("Skipped duplicate retry after recent failure: " ++ msg)) ∧
    containsStr msg ("Skipped duplicate retry after recent failure: " ++ msg) = true ∧
    (admitStep st key now successWindow errorWindow).2.started = st.started ∧
    (∀ now2, now ≤ now2 → errorWindow < now2 - ts →
      (st.recentErrors.map Prod.fst).Nodup →
      dlookup st.inFlight key = none →
      (admitStep st key now2 successWindow errorWindow).1 =
        .proceed true st.nextTaskId ∧
      (admitStep st key now2 successWindow errorWindow).2.started =
        st.started ++ [st.nextTaskId]) := by
  have hkept : (!(now - ts > errorWindow * 2)) = true := by
    simp only [Bool.not_eq_true', decide_eq_false_iff_not, gt_iff_lt, not_lt]
    omega
  have hsmiss : ∀ n, now ≤ n → ∀ t p,
      dlookup (pruneCache st n successWindow errorWindow).recentResults key =
        some (t, p) →
      (0 < successWindow && n - t ≤ successWindow) = false := by
    intro n hn t p hlk
    by_cases hsw : 0 < successWindow
    · have hmem : (key, (t, p)) ∈ st.recentResults := by
        have hm := mem_of_dlookup_some _ _ _ hlk
        simp only [pruneCache] at hm
        rw [if_pos hsw] at hm
        exact List.mem_of_mem_filter hm
      have hg := hs t p hmem
      simp only [Bool.and_eq_false_iff, decide_eq_false_iff_not, not_lt, not_le]
        at hg ⊢
      rcases hg with h0 | hstale
      · exact Or.inl h0
      · exact Or.inr (by omega)
    · simp only [Bool.and_eq_false_iff, decide_eq_false_iff_not]
      exact Or.inl hsw
  have helook : dlookup (pruneCache st now successWindow errorWindow).recentErrors key =
      some (ts, msg) := by
    simp only [pruneCache]
    rw [if_pos hew]
    exact dlookup_filter_some _ _ _ _ he hkept
  have hstep : admitStep st key now successWindow errorWindow =
      (.suppressed ("Skipped duplicate retry after recent failure: " ++ msg),
        pruneCache st now successWindow errorWindow) := by
    unfold admitStep
    dsimp only
    cases hlk : dlookup (pruneCache st now successWindow errorWindow).recentResults
        key with
    | none =>
      rw [helook]
      simp [hew, hwin]
    | some v =>
      obtain ⟨t, p⟩ := v
      have hg := hsmiss now (Nat.le_refl now) t p hlk
      have hng : ¬ (0 < successWindow ∧ now ≤ successWindow + t) := by
        simp only [Bool.and_eq_false_iff, decide_eq_false_iff_not, not_lt, not_le]
          at hg
        rcases hg with h0 | h1
        · rintro ⟨hc, -⟩
          omega
        · rintro ⟨-, hc⟩
          omega
      rw [helook]
      simp [hew, hwin, hng]
  refine ⟨by rw [hstep], by rw [hstep]; rfl, containsStr_append_self _ _,
    by rw [hstep]; simp [pruneCache], ?_⟩
  intro now2 hle hElapsed hnd hinf
  have helook2 : dlookup (pruneCache st now2 successWindow errorWindow).recentErrors
      key = if (!(now2 - ts > errorWindow * 2)) then some (ts, msg) else none := by
    simp only [pruneCache]
    rw [if_pos hew]
    exact dlookup_filter_nodup _ _ _ _ hnd he
  have hinf2 : dlookup (pruneCache st now2 successWindow errorWindow).inFlight key =
      none := hinf
  have hguard : (0 < errorWindow && now2 - ts ≤ errorWindow) = false := by
    simp only [Bool.and_eq_false_iff, decide_eq_false_iff_not, not_le]
    right
    omega
  have hstep2 : admitStep st key now2 successWindow errorWindow =
      (.proceed true st.nextTaskId,
       { pruneCache st now2 successWindow errorWindow with
         inFlight := dinsert (pruneCache st now2 successWindow errorWindow).inFlight
           key st.nextTaskId,
         nextTaskId := st.nextTaskId + 1,
         started := st.started ++ [st.nextTaskId] }) := by
    unfold admitStep
    dsimp only
    cases hlk : dlookup (pruneCache st now2 successWindow errorWindow).recentResults
        key with
    | none =>
      rw [helook2]
      by_cases hpruned : (!(now2 - ts > errorWindow * 2)) = true
      · simp only [if_pos hpruned, hguard, Bool.false_eq_true, if_false, hinf2]
        simp [pruneCache]
      · simp only [if_neg hpruned, hinf2]
        simp [pruneCache]
    | some v =>
      obtain ⟨t, p⟩ := v
      have hg := hsmiss now2 hle t p hlk
      rw [helook2]
      by_cases hpruned : (!(now2 - ts > errorWindow * 2)) = true
      · simp only [hg, Bool.false_eq_true, if_false, if_pos hpruned, hguard, hinf2]
        simp [pruneCache]
      · simp only [hg, Bool.false_eq_true, if_false, if_neg hpruned, hinf2]
        simp [pruneCache]
  exact ⟨by rw [hstep2], by rw [hstep2]⟩

/-- C5 (witness): with a stale success entry (written at t=5, 90-second
window) still cached alongside a failure entry written at t=100, a retry at
t=110 (25-second failure window) is suppressed, and a repeated call at t=130
re-executes. -/
theorem failure_window_suppression_witness :
    (admitStep ⟨[("k", (5, [("pdf_path", "/tmp/a.pdf")]))],
        [("k", (100, "boom"))], [], 3, []⟩ "k" 110 90 25).1 =
      .suppressed ("Skipped duplicate retry after recent failure: " ++ "boom") ∧
    (admitStep ⟨[("k", (5, [("pdf_path", "/tmp/a.pdf")]))],
        [("k", (100, "boom"))], [], 3, []⟩ "k" 130 90 25).1 =
      .proceed true 3 := by
  have h := failure_window_suppression
    ⟨[("k", (5, [("pdf_path", "/tmp/a.pdf")]))], [("k", (100, "boom"))], [], 3, []⟩
    "k" 110 100 90 25 "boom" (by decide)
    (by
      intro t p hmem
      simp only [List.mem_singleton, Prod.mk.injEq] at hmem
      obtain ⟨-, ht, -⟩ := hmem
      subst ht
      decide)
    (by decide) (by decide)
  exact ⟨h.1, (h.2.2.2.2 130 (by decide) (by decide) (by decide) (by decide)).1⟩

/-- C1.  Singleflight: with no applicable cache entry and a free in-flight
slot, the first caller's admission registers exactly one new pipeline
execution (task `st.nextTaskId`); any second caller admitted while that task
is still in flight (state `st2`, with the task still registered and still no
applicable cache entry) attaches to the same task without starting another
execution; both callers await the same task, so with `exec` giving each
task's settled payload they return annotations of the identical payload —
equal on every key outside the three dedup-annotation keys — with the
attaching caller marked `deduplicated=true, dedupe_reason="in-flight"` and
the owner marked `deduplicated=false, dedupe_reason="none"`. -/
theorem singleflight_in_flight_dedup
    (st st2 : CoordState) (key : String) (nowA nowB successWindow errorWindow : Nat)
    (exec : Nat → Payload)
    (hr : dlookup st.recentResults key = none)
    (he : dlookup st.recentErrors key = none)
    (hf : dlookup st.inFlight key = none)
    (hr2 : dlookup st2.recentResults key = none)
    (he2 : dlookup st2.recentErrors key = none)
    (hf2 : dlookup st2.inFlight key = some st.nextTaskId) :
    (admitStep st key nowA successWindow errorWindow).1 =
      .proceed true st.nextTaskId ∧
    (admitStep st key nowA successWindow errorWindow).2.started =
      st.started ++ [st.nextTaskId] ∧
    (admitStep st2 key nowB successWindow errorWindow).1 =
      .proceed false st.nextTaskId ∧
    (admitStep st2 key nowB successWindow errorWindow).2.started = st2.started ∧
    (admitStep st2 key nowB successWindow errorWindow).2.nextTaskId =
      st2.nextTaskId ∧
    dlookup (attachedResult (exec st.nextTaskId) successWindow) "deduplicated" =
      some "true" ∧
    dlookup (attachedResult (exec st.nextTaskId) successWindow) "dedupe_reason" =
      some "in-flight" ∧
    dlookup (ownerResult (exec st.nextTaskId) successWindow) "deduplicated" =
      some "false" ∧
    dlookup (ownerResult (exec st.nextTaskId) successWindow) "dedupe_reason" =
      some "none" ∧
    (∀ k, k ≠ "deduplicated" → k ≠ "dedupe_reason" → k ≠ "dedupe_window_seconds" →
      dlookup (ownerResult (exec st.nextTaskId) successWindow) k =
        dlookup (attachedResult (exec st.nextTaskId) successWindow) k) := by
  have hprune : ∀ (s : CoordState) n,
      dlookup s.recentResults key = none →
      dlookup (pruneCache s n successWindow errorWindow).recentResults key = none := by
    intro s n h0
    simp only [pruneCache]
    by_cases hsw : 0 < successWindow
    · rw [if_pos hsw]; exact dlookup_filter_none _ _ _ h0
    · rw [if_neg hsw]; rfl
  have hpruneE : ∀ (s : CoordState) n,
      dlookup s.recentErrors key = none →
      dlookup (pruneCache s n successWindow errorWindow).recentErrors key = none := by
    intro s n h0
    simp only [pruneCache]
    by_cases hewp : 0 < errorWindow
    · rw [if_pos hewp]; exact dlookup_filter_none _ _ _ h0
    · rw [if_neg hewp]; rfl
  have hstepA : admitStep st key nowA successWindow errorWindow =
      (.proceed true st.nextTaskId,
       { pruneCache st nowA successWindow errorWindow with
         inFlight := dinsert (pruneCache st nowA successWindow errorWindow).inFlight
           key st.nextTaskId,
         nextTaskId := st.nextTaskId + 1,
         started := st.started ++ [st.nextTaskId] }) := by
    unfold admitStep
    dsimp only
    rw [hprune st nowA hr, hpruneE st nowA he]
    have : dlookup (pruneCache st nowA successWindow errorWindow).inFlight key =
        none := hf
    rw [this]
    simp [pruneCache]
  have hstepB : admitStep st2 key nowB successWindow errorWindow =
      (.proceed false st.nextTaskId, pruneCache st2 nowB successWindow errorWindow) := by
    unfold admitStep
    dsimp only
    rw [hprune st2 nowB hr2, hpruneE st2 nowB he2]
    have : dlookup (pruneCache st2 nowB successWindow errorWindow).inFlight key =
        some st.nextTaskId := hf2
    rw [this]
  refine ⟨by rw [hstepA], by rw [hstepA], by rw [hstepB], by rw [hstepB]; simp [pruneCache],
    by rw [hstepB]; simp [pruneCache],
    by rw [show dlookup (attachedResult (exec st.nextTaskId) successWindow)
        "deduplicated" = some (if true then "true" else "false") from
        annotate_dedup _ true _ _]; rfl,
    annotate_reason _ true _ _,
    by rw [show dlookup (ownerResult (exec st.nextTaskId) successWindow)
        "deduplicated" = some (if false then "true" else "false") from
        annotate_dedup _ false _ _]; rfl,
    annotate_reason _ false _ _, ?_⟩
  intro k h1 h2 h3
  unfold ownerResult attachedResult
  rw [annotate_other _ _ _ _ _ h1 h2 h3, annotate_other _ _ _ _ _ h1 h2 h3]

/-- C1 (witness): a concrete two-caller run on an empty coordinator state;
the second state is the first admission's post-state. -/
theorem singleflight_in_flight_dedup_witness :
    (admitStep ⟨[], [], [], 0, []⟩ "k" 1 90 25).1 = .proceed true 0 ∧
    (admitStep (admitStep ⟨[], [], [], 0, []⟩ "k" 1 90 25).2 "k" 2 90 25).1 =
      .proceed false 0 := by
  have h := singleflight_in_flight_dedup ⟨[], [], [], 0, []⟩
    (admitStep ⟨[], [], [], 0, []⟩ "k" 1 90 25).2 "k" 1 2 90 25 (fun _ => [])
    (by decide) (by decide) (by decide) (by decide) (by decide) (by decide)
  exact ⟨h.1, h.2.2.1⟩

/-- C2 (counterexample setup): a concrete run of the coordinator's own step
functions.  A first call for the identity of `("BHP", "user@example.com",
send_email=true)` executes and settles successfully at time 5; a second call
at time 100 (the 5-second-old entry is now 95 seconds old: outside the
90-second success window but inside the `2 × 90` prune horizon) executes
again and settles with a failure at time 101.  The failure continuation
(server.py line 167) writes the failure entry without removing the stale
success entry. -/
def c2Key : String := requestKey "BHP" "user@example.com" true

def c2Payload : Payload := [("pdf_path", "/tmp/report.pdf")]

def c2State2 : CoordState :=
  ownerSuccessWriteStep
    (ownerPopStep (admitStep ⟨[], [], [], 0, []⟩ c2Key 0 90 25).2 c2Key)
    c2Key 5 c2Payload

def c2State4 : CoordState :=
  ownerFailureWriteStep
    (ownerPopStep (admitStep c2State2 c2Key 100 90 25).2 c2Key)
    c2Key 101 "capture timeout"

/-- C2 (counterexample).  After the second (re-executed, failed) call settles,
the success cache and the failure cache both hold an entry for the same
request identity, refuting the claimed mutual-exclusivity invariant:
the failure continuation never removes a prior success entry. -/
theorem cache_mutual_exclusion_counterexample :
    (admitStep c2State2 c2Key 100 90 25).1 = .proceed true 1 ∧
    dlookup c2State4.recentResults c2Key = some (5, c2Payload) ∧
    dlookup c2State4.recentErrors c2Key = some (101, "capture timeout") := by
  refine ⟨by decide, by decide, by decide⟩

/-- C2 (amended).  The invariant holds in one direction only: a successful
settlement removes any prior failure entry for the identity when it writes
the success entry, whereas a failed settlement writes the failure entry and
leaves the success cache untouched — so after a failure both caches can hold
an entry for the same identity (as the counterexample exhibits); the stale
success entry disappears only through later pruning or overwrite. -/
theorem cache_mutual_exclusion_amended :
    (∀ (st : CoordState) (key : String) (now : Nat) (p : Payload),
      dlookup (ownerSuccessWriteStep st key now p).recentErrors key = none ∧
      dlookup (ownerSuccessWriteStep st key now p).recentResults key =
        some (now, p)) ∧
    (∀ (st : CoordState) (key : String) (now : Nat) (msg : String),
      dlookup (ownerFailureWriteStep st key now msg).recentErrors key =
        some (now, msg) ∧
      (ownerFailureWriteStep st key now msg).recentResults = st.recentResults) := by
  constructor
  · intro st key now p
    exact ⟨dlookup_derase_self _ _, dlookup_dinsert_self _ _ _⟩
  · intro st key now msg
    exact ⟨dlookup_dinsert_self _ _ _, rfl⟩

/-! ## `build_asx_url` and `_is_asx_url` (claim C10) -/

/-- `YAHOO_HOST_SUFFIXES` from pipeline.py, verbatim. -/
def YAHOO_HOST_SUFFIXES : List String := ["au.finance.yahoo.com", "finance.yahoo.com"]

/-- `str.replace(".AX", "")`: every occurrence removed, scanning left to
right (fuel shape as before). -/
def removeDotAxAux : Nat → List Char → List Char
  | _, [] => []
  | 0, l => l
  | fuel + 1, c :: cs =>
    if (['.', 'A', 'X'] : List Char).isPrefixOf (c :: cs) then
      removeDotAxAux fuel (cs.drop 2)
    else c :: removeDotAxAux fuel cs

def removeDotAx (l : List Char) : List Char := removeDotAxAux l.length l

/-- `build_asx_url` (pipeline.py lines 171-173): `(asx_code or
"HUB").upper().replace(".AX", "")` interpolated into the quote URL. -/
def build_asx_url (asxCode : Option String) : String :=
  let code0 := match asxCode with
    | none => "HUB"
    | some s => if s = "" then "HUB" else s
  let code := String.mk (removeDotAx (code0.toList.map pyToUpper))
  "https://au.finance.yahoo.com/quote/" ++ code ++ ".AX/"

/-- `str.rpartition('@')`-style tail used by `urlparse(...).hostname`:
the netloc after the last `@` (the whole netloc when there is none). -/
def afterLastAt (l : List Char) : List Char := (splitOnChar '@' l).getLastD []

/-- `urlparse(url).hostname or ""` lowercased (`_hostname`, pipeline.py lines
191-195): netloc after the last `@`, before a `:` port, lowercase (bracketed
IPv6 hosts are not modelled, see the header). -/
def hostnameCore (url : List Char) : List Char :=
  ((afterLastAt (urlNetloc url)).takeWhile (fun c => c ≠ ':')).map pyToLower

/-- `_is_asx_url` (pipeline.py lines 198-208) on the character list:
recognized Yahoo host (exact or dot-suffix) and `"/quote/"` inside the
lowercased path. -/
def isAsxUrlCore (url : List Char) : Bool :=
  let host := hostnameCore url
  if !(YAHOO_HOST_SUFFIXES.any fun suffix =>
      host = suffix.toList || ('.' :: suffix.toList).isSuffixOf host) then false
  else containsSeq "/quote/".toList ((urlPath url).map pyToLower)

def is_asx_url (url : String) : Bool := isAsxUrlCore url.toList

/-! ### The URL round trip (claim C10) -/

theorem takeWhile_append_of_all {p : Char → Bool} {l1 : List Char} (l2 : List Char)
    (h : ∀ x ∈ l1, p x = true) :
    (l1 ++ l2).takeWhile p = l1 ++ l2.takeWhile p := by
  induction l1 with
  | nil => simp
  | cons c cs ih =>
    simp [List.takeWhile_cons, h c (by simp), ih (fun x hx => h x (by simp [hx]))]

theorem takeWhile_append_short {p : Char → Bool} {l1 : List Char} (l2 : List Char)
    (h : (l1.takeWhile p).length < l1.length) :
    (l1 ++ l2).takeWhile p = l1.takeWhile p := by
  induction l1 with
  | nil => simp at h
  | cons c cs ih =>
    cases hc : p c with
    | true =>
      simp only [List.takeWhile_cons, hc, if_true, List.length_cons,
        List.cons_append] at h ⊢
      rw [ih (by omega)]
    | false => simp [List.takeWhile_cons, hc]

theorem isPrefixOf_append_self (l t : List Char) : l.isPrefixOf (l ++ t) = true := by
  induction l with
  | nil => simp [List.isPrefixOf]
  | cons c cs ih => simp [List.isPrefixOf, ih]

theorem containsSeq_prefix_self (l t : List Char) : containsSeq l (l ++ t) = true := by
  cases l with
  | nil =>
    cases t with
    | nil => rfl
    | cons c cs => simp [containsSeq]
  | cons c cs =>
    show (List.isPrefixOf (c :: cs) (c :: (cs ++ t)) || containsSeq (c :: cs) (cs ++ t)) =
      true
    rw [show c :: (cs ++ t) = (c :: cs) ++ t from rfl, isPrefixOf_append_self]
    rfl

theorem schemeSplit_quote_shape (mid : List Char) :
    schemeSplit ("https://au.finance.yahoo.com/quote/".toList ++ mid) =
      "//au.finance.yahoo.com/quote/".toList ++ mid := by
  unfold schemeSplit
  dsimp only
  have htw : ("https://au.finance.yahoo.com/quote/".toList ++ mid).takeWhile
      (fun c => c ≠ ':') = ['h', 't', 't', 'p', 's'] := by
    rw [takeWhile_append_short mid (by decide)]
    decide
  rw [htw]
  have hlen : ("https://au.finance.yahoo.com/quote/".toList ++ mid).length =
      35 + mid.length := by
    rw [List.length_append]
    rw [show "https://au.finance.yahoo.com/quote/".toList.length = 35 from by decide]
  have hc : ((['h', 't', 't', 'p', 's'] : List Char).length > 0 &&
      (['h', 't', 't', 'p', 's'] : List Char).length <
        ("https://au.finance.yahoo.com/quote/".toList ++ mid).length &&
      (['h', 't', 't', 'p', 's'] : List Char).all isSchemeChar) = true := by
    simp only [hlen, Bool.and_eq_true, decide_eq_true_eq]
    refine ⟨⟨by simp, by simp; omega⟩, by decide⟩
  rw [hc]
  simp only [if_true]
  rw [show (['h', 't', 't', 'p', 's'] : List Char).length + 1 = 6 from rfl]
  rw [List.drop_append_of_le_length (by decide)]
  rw [show "https://au.finance.yahoo.com/quote/".toList.drop 6 =
      "//au.finance.yahoo.com/quote/".toList from by decide]

theorem urlNetloc_quote_shape (mid : List Char) :
    urlNetloc ("https://au.finance.yahoo.com/quote/".toList ++ mid) =
      "au.finance.yahoo.com".toList := by
  unfold urlNetloc
  dsimp only
  rw [schemeSplit_quote_shape]
  rw [List.take_append_of_le_length (by decide)]
  rw [show "//au.finance.yahoo.com/quote/".toList.take 2 = ['/', '/'] from by decide]
  rw [if_pos rfl]
  rw [List.drop_append_of_le_length (by decide)]
  rw [show "//au.finance.yahoo.com/quote/".toList.drop 2 =
      "au.finance.yahoo.com/quote/".toList from by decide]
  rw [takeWhile_append_short mid (by decide)]
  decide

theorem urlAfterNetloc_quote_shape (mid : List Char) :
    urlAfterNetloc ("https://au.finance.yahoo.com/quote/".toList ++ mid) =
      "/quote/".toList ++ mid := by
  unfold urlAfterNetloc
  dsimp only
  rw [schemeSplit_quote_shape, urlNetloc_quote_shape]
  rw [List.take_append_of_le_length (by decide)]
  rw [show "//au.finance.yahoo.com/quote/".toList.take 2 = ['/', '/'] from by decide]
  rw [if_pos rfl]
  rw [List.drop_append_of_le_length (by decide)]
  rw [show "//au.finance.yahoo.com/quote/".toList.drop 2 =
      "au.finance.yahoo.com/quote/".toList from by decide]
  rw [show ("au.finance.yahoo.com".toList).length = 20 from by decide]
  rw [List.drop_append_of_le_length (by decide)]
  rw [show "au.finance.yahoo.com/quote/".toList.drop 20 = "/quote/".toList from by decide]

theorem urlPath_quote_shape (mid : List Char) :
    urlPath ("https://au.finance.yahoo.com/quote/".toList ++ mid) =
      "/quote/".toList ++
        ((mid.takeWhile (fun c => c ≠ '#')).takeWhile (fun c => c ≠ '?')) := by
  unfold urlPath
  rw [urlAfterNetloc_quote_shape]
  rw [takeWhile_append_of_all _ (by decide)]
  rw [takeWhile_append_of_all _ (by decide)]

theorem hostnameCore_quote_shape (mid : List Char) :
    hostnameCore ("https://au.finance.yahoo.com/quote/".toList ++ mid) =
      "au.finance.yahoo.com".toList := by
  unfold hostnameCore
  rw [urlNetloc_quote_shape]
  decide

theorem isAsxUrlCore_quote_shape (mid : List Char) :
    isAsxUrlCore ("https://au.finance.yahoo.com/quote/".toList ++ mid) = true := by
  unfold isAsxUrlCore
  dsimp only
  rw [hostnameCore_quote_shape]
  have hhost : (!(YAHOO_HOST_SUFFIXES.any fun suffix =>
      "au.finance.yahoo.com".toList = suffix.toList ||
      ('.' :: suffix.toList).isSuffixOf "au.finance.yahoo.com".toList)) = false := by
    decide
  rw [hhost]
  simp only [Bool.false_eq_true, if_false]
  rw [urlPath_quote_shape, List.map_append]
  rw [show "/quote/".toList.map pyToLower = "/quote/".toList from by decide]
  exact containsSeq_prefix_self _ _

theorem is_asx_url_quote (code : String) :
    is_asx_url ("https://au.finance.yahoo.com/quote/" ++ code ++ ".AX/") = true := by
  unfold is_asx_url
  have h1 : ("https://au.finance.yahoo.com/quote/" ++ code ++ ".AX/").toList =
      "https://au.finance.yahoo.com/quote/".toList ++
        (code.toList ++ ".AX/".toList) := by
    simp [String.toList, String.data_append]
  rw [h1]
  exact isAsxUrlCore_quote_shape _

/-- C10.  The URL built by `build_asx_url` from any normalization result
(including the `None` → `"HUB"` substitution) always satisfies `_is_asx_url`:
its hostname is `au.finance.yahoo.com` and its path contains `"/quote/"`. -/
theorem url_roundtrip_identity (s : String) :
    is_asx_url (build_asx_url (normalize_asx_code s)) = true := by
  unfold build_asx_url
  dsimp only
  exact is_asx_url_quote _

/-! ## `_resolve_output_dir` (pipeline.py lines 594-638, claim C8)

Paths are modelled as their POSIX string forms; `Path.home()`, `Path.resolve
(strict=False)` and the `mkdir`+write-probe of `_can_write_directory` are
environment oracles. -/

/-- `sep.join(xs)` (Python string join, recursion-friendly shape). -/
def joinStrings (sep : String) : List String → String
  | [] => ""
  | [x] => x
  | x :: y :: ys => x ++ sep ++ joinStrings sep (y :: ys)

theorem toList_append (a b : String) : (a ++ b).toList = a.toList ++ b.toList := by
  simp [String.toList, String.data_append]

/-- `str(PurePosixPath(s))`: empty input becomes `"."`, slash runs collapse,
trailing slashes and `"."` segments drop (the `//` double-root special case
and `~user` forms are not modelled). -/
def pathOfString (s : String) : String :=
  let segs := (splitOnChar '/' s.toList).filter
    (fun p => !p.isEmpty && String.mk p ≠ ".")
  let body := joinStrings "/" (segs.map String.mk)
  if s.toList.headD ' ' = '/' then "/" ++ body
  else if body = "" then "." else body

/-- `Path.expanduser()` with the oracle home directory. -/
def expandUser (home : String) (p : String) : String :=
  if p = "~" then home
  else if ("~/".toList).isPrefixOf p.toList then home ++ String.mk (p.toList.drop 1)
  else p

/-- `OUTPUT_DIR_PLACEHOLDERS` from pipeline.py, verbatim. -/
def OUTPUT_DIR_PLACEHOLDERS : List String :=
  ["/path/to/local/directory", "path/to/local/directory"]

/-- `_is_placeholder_output_dir` (lines 594-596): strip, backslashes to
slashes, strip trailing slashes, lowercase, membership. -/
def is_placeholder_output_dir (p : String) : Bool :=
  let raw := String.mk
    (((((pyStrip p.toList).map (fun c => if c = '\\' then '/' else c)).reverse.dropWhile
      (fun c => c = '/')).reverse).map pyToLower)
  OUTPUT_DIR_PLACEHOLDERS.contains raw

/-- The file-system-facing oracles of the resolver. -/
structure ResolveEnv where
  home : String
  resolveAbs : String → String
  canWrite : String → Bool

/-- `Path(requested_raw or "output").expanduser()` (line 612). -/
def requestedPath (env : ResolveEnv) (outputDir : String) : String :=
  let requestedRaw := String.mk (pyStrip outputDir.toList)
  expandUser env.home (pathOfString (if requestedRaw = "" then "output" else requestedRaw))

/-- The ordered candidate list (lines 614-620). -/
def rawCandidates (env : ResolveEnv) (outputDir : String) : List String :=
  (if String.mk (pyStrip outputDir.toList) ≠ "" &&
      !is_placeholder_output_dir (requestedPath env outputDir) then
    [requestedPath env outputDir]
  else []) ++
  ["output", env.home ++ "/Desktop/asx-mcp-output", "/tmp/asx-mcp-output"]

/-- The `seen`-set dedup loop (lines 622-629): first-seen order, keyed by the
resolved absolute form. -/
def dedupeByKeyAux (f : String → String) (seen : List String) :
    List String → List String
  | [] => []
  | c :: cs =>
    if seen.contains (f c) then dedupeByKeyAux f seen cs
    else c :: dedupeByKeyAux f (f c :: seen) cs

def uniqueCandidates (env : ResolveEnv) (outputDir : String) : List String :=
  dedupeByKeyAux env.resolveAbs [] (rawCandidates env outputDir)

/-- `_resolve_output_dir` (lines 610-638). -/
def resolve_output_dir (env : ResolveEnv) (outputDir : String) : Except String String :=
  match (uniqueCandidates env outputDir).find? env.canWrite with
  | some c => .ok c
  | none => .error ("No writable output directory available. Tried: " ++
      joinStrings ", " (uniqueCandidates env outputDir))

theorem find?_some_split {p : String → Bool} {l : List String} {c : String}
    (h : l.find? p = some c) :
    ∃ pre post, l = pre ++ c :: post ∧ (∀ x ∈ pre, p x = false) ∧ p c = true := by
  induction l with
  | nil => simp at h
  | cons a as ih =>
    cases hpa : p a with
    | true =>
      rw [List.find?_cons_of_pos _ hpa] at h
      injection h with h
      subst h
      exact ⟨[], as, rfl, by simp, hpa⟩
    | false =>
      rw [List.find?_cons_of_neg _ (by simp [hpa])] at h
      obtain ⟨pre, post, heq, hall, hc⟩ := ih h
      refine ⟨a :: pre, post, by simp [heq], ?_, hc⟩
      intro x hx
      rcases List.mem_cons.mp hx with rfl | hx'
      · exact hpa
      · exact hall x hx'

theorem contains_joinStrings {c : String} (sep : String) (l : List String)
    (h : c ∈ l) : containsStr c (joinStrings sep l) = true := by
  induction l with
  | nil => simp at h
  | cons x xs ih =>
    cases xs with
    | nil =>
      have hcx : c = x := by simpa using h
      subst hcx
      unfold joinStrings containsStr
      exact containsSeq_self _
    | cons y ys =>
      simp only [joinStrings]
      rcases List.mem_cons.mp h with rfl | hx'
      · unfold containsStr
        rw [toList_append, toList_append, List.append_assoc]
        exact containsSeq_prefix_self _ _
      · unfold containsStr
        rw [toList_append]
        exact containsSeq_append_left _ _ _ (ih hx')

theorem dedupeByKeyAux_sublist (f : String → String) (seen : List String)
    (l : List String) : (dedupeByKeyAux f seen l).Sublist l := by
  induction l generalizing seen with
  | nil => simp [dedupeByKeyAux]
  | cons c cs ih =>
    unfold dedupeByKeyAux
    split
    · exact (ih seen).cons c
    · exact (ih _).cons₂ c

theorem dedupeByKeyAux_covers (f : String → String) (seen : List String)
    (l : List String) (x : String) (hx : x ∈ l) :
    f x ∈ seen ∨ ∃ y ∈ dedupeByKeyAux f seen l, f y = f x := by
  induction l generalizing seen with
  | nil => simp at hx
  | cons c cs ih =>
    unfold dedupeByKeyAux
    rcases List.mem_cons.mp hx with rfl | hx'
    · split
      case isTrue hseen => exact Or.inl (by simpa using hseen)
      case isFalse => exact Or.inr ⟨x, by simp, rfl⟩
    · split
      case isTrue hseen => exact ih seen hx'
      case isFalse hseen =>
        rcases ih (f c :: seen) hx' with hmem | ⟨y, hy, hfy⟩
        · rcases List.mem_cons.mp hmem with heq | hmem'
          · exact Or.inr ⟨c, by simp, heq.symm⟩
          · exact Or.inl hmem'
        · exact Or.inr ⟨y, by simp [hy], hfy⟩

theorem dedupeByKeyAux_nodup (f : String → String) (seen : List String)
    (l : List String) :
    ((dedupeByKeyAux f seen l).map f).Nodup ∧
    ∀ y ∈ dedupeByKeyAux f seen l, f y ∉ seen := by
  induction l generalizing seen with
  | nil => simp [dedupeByKeyAux]
  | cons c cs ih =>
    unfold dedupeByKeyAux
    split
    case isTrue => exact ih seen
    case isFalse hseen =>
      obtain ⟨hnd, hnot⟩ := ih (f c :: seen)
      refine ⟨?_, ?_⟩
      · simp only [List.map_cons, List.nodup_cons]
        refine ⟨?_, hnd⟩
        intro hmem
        obtain ⟨y, hy, hfy⟩ := List.mem_map.mp hmem
        exact (hnot y hy) (by simp [hfy])
      · intro y hy
        rcases List.mem_cons.mp hy with rfl | hy'
        · simpa using hseen
        · intro hmem
          exact (hnot y hy') (by simp [hmem])

/-- C8.  The resolver consults the deduplicated ordered candidate list
(`uniqueCandidates` is an order-preserving sublist of the built candidates
that keeps one representative per resolved absolute form and covers every
candidate), returns the first candidate whose directory creation and write
probe succeed, and on total failure raises an error that names every
attempted candidate. -/
theorem resolve_output_dir_spec (env : ResolveEnv) (outputDir : String) :
    (uniqueCandidates env outputDir).Sublist (rawCandidates env outputDir) ∧
    (∀ c ∈ rawCandidates env outputDir, ∃ c' ∈ uniqueCandidates env outputDir,
      env.resolveAbs c' = env.resolveAbs c) ∧
    ((uniqueCandidates env outputDir).map env.resolveAbs).Nodup ∧
    (∀ c, resolve_output_dir env outputDir = .ok c →
      env.canWrite c = true ∧
      ∃ pre post, uniqueCandidates env outputDir = pre ++ c :: post ∧
        ∀ x ∈ pre, env.canWrite x = false) ∧
    (∀ msg, resolve_output_dir env outputDir = .error msg →
      (∀ c ∈ uniqueCandidates env outputDir, env.canWrite c = false) ∧
      (∀ c ∈ uniqueCandidates env outputDir, containsStr c msg = true)) := by
  refine ⟨dedupeByKeyAux_sublist _ _ _, ?_, (dedupeByKeyAux_nodup _ _ _).1, ?_, ?_⟩
  · intro c hc
    rcases dedupeByKeyAux_covers env.resolveAbs [] (rawCandidates env outputDir) c hc
      with hmem | hy
    · simp at hmem
    · exact hy
  · intro c hok
    unfold resolve_output_dir at hok
    cases hfind : (uniqueCandidates env outputDir).find? env.canWrite with
    | some c' =>
      rw [hfind] at hok
      injection hok with hok
      subst hok
      obtain ⟨pre, post, heq, hall, hc⟩ := find?_some_split hfind
      exact ⟨hc, pre, post, heq, hall⟩
    | none => rw [hfind] at hok; exact absurd hok (by simp)
  · intro msg herr
    unfold resolve_output_dir at herr
    cases hfind : (uniqueCandidates env outputDir).find? env.canWrite with
    | some c' => rw [hfind] at herr; exact absurd herr (by simp)
    | none =>
      rw [hfind] at herr
      injection herr with herr
      refine ⟨?_, ?_⟩
      · intro c hc
        have := List.find?_eq_none.mp hfind c hc
        simpa using this
      · intro c hc
        rw [← herr]
        unfold containsStr
        rw [toList_append]
        exact containsSeq_append_left _ _ _ (contains_joinStrings ", " _ hc)

/-- C8 (witness): a placeholder request is skipped and the first genuinely
writable candidate (`"output"`) is returned. -/
theorem resolve_output_dir_witness :
    resolve_output_dir ⟨"/Users/u", id, fun p => p == "output"⟩
      "/path/to/local/directory/" = .ok "output" ∧
    uniqueCandidates ⟨"/Users/u", id, fun p => p == "output"⟩
      "/path/to/local/directory/" =
      ["output", "/Users/u/Desktop/asx-mcp-output", "/tmp/asx-mcp-output"] ∧
    (fun p => p == "output") "output" = true := by
  have hok : resolve_output_dir ⟨"/Users/u", id, fun p => p == "output"⟩
      "/path/to/local/directory/" = .ok "output" := by rfl
  have h := ((resolve_output_dir_spec ⟨"/Users/u", id, fun p => p == "output"⟩
    "/path/to/local/directory/").2.2.2.1 "output" hok).1
  exact ⟨hok, by decide, h⟩

/-! ## `convert_docx_to_pdf` (pipeline.py lines 370-551, claim C7)

The file system is a finite map from canonical paths (component lists) to
sizes; directories are implicit; `Path.resolve()` is the identity on these
canonical paths.  The two external converters (the LibreOffice subprocess,
`docx2pdf.convert`) are oracles that may report an exception and transform
the file system arbitrarily.  `events` records every oracle invocation and
`recorded` mirrors the internal `errors` list (ghost instrumentation). -/

abbrev FPath := List String

abbrev FS := List (FPath × Nat)

def fsLookup : FS → FPath → Option Nat
  | [], _ => none
  | (q, n) :: rest, p => if q = p then some n else fsLookup rest p

def fsSet : FS → FPath → Nat → FS
  | [], p, n => [(p, n)]
  | (q, m) :: rest, p, n => if q = p then (q, n) :: rest else (q, m) :: fsSet rest p n

def fsRemove : FS → FPath → FS
  | [], _ => []
  | (q, m) :: rest, p => if q = p then fsRemove rest p else (q, m) :: fsRemove rest p

def fsExists (fs : FS) (p : FPath) : Bool := (fsLookup fs p).isSome

/-- `shutil.move(src, dst)` on the size map. -/
def fsMove (fs : FS) (src dst : FPath) : FS :=
  match fsLookup fs src with
  | some n => fsSet (fsRemove fs src) dst n
  | none => fs

def parentPath (p : FPath) : FPath := p.dropLast

def pathName (p : FPath) : String := p.getLastD ""

def joinPath (p : FPath) (n : String) : FPath := p ++ [n]

def pathStr (p : FPath) : String := joinStrings "/" p

/-- `PurePath.stem`: the name without its final suffix; a suffix requires a
dot that is neither the first nor the last character of the name. -/
def nameStem (name : String) : String :=
  let l := name.toList
  let revIdx := (l.reverse.takeWhile (fun c => c ≠ '.')).length
  let n := l.length
  if revIdx < n then
    let i := n - revIdx - 1
    if 0 < i && i < n - 1 then String.mk (l.take i) else name
  else name

/-- `Path.with_suffix(suffix)`. -/
def withSuffix (p : FPath) (suffix : String) : FPath :=
  parentPath p ++ [nameStem (pathName p) ++ suffix]

/-- A file that exists and is nonempty. -/
def fileNonempty (fs : FS) (p : FPath) : Bool :=
  match fsLookup fs p with
  | some n => 0 < n
  | none => false

/-- `output_ready()` (pipeline.py lines 449-453): output exists, nonempty. -/
def outputReady (fs : FS) (outputPdf : FPath) : Bool := fileNonempty fs outputPdf

/-- The external-world oracles of the conversion pipeline. -/
structure ConvEnv where
  pdfEngineEnv : Option String
  loBinary : Option String
  loTimeout : Nat
  loRun : FS → Option String × FS
  d2pConvert : FPath → Option FPath → FS → Option String × FS

inductive ConvEvent where
  | loInvoked (binary : String) (timeoutSeconds : Nat)
  | docx2pdfInvoked (input : FPath) (output : Option FPath)
deriving DecidableEq, Repr

/-- `os.getenv("ASX_PDF_ENGINE", "auto").strip().lower()` with the empty
fallback (lines 455-457). -/
def pdfEngineOf (env : ConvEnv) : String :=
  let e := String.mk ((pyStrip (env.pdfEngineEnv.getD "auto").toList).map pyToLower)
  if e = "" then "auto" else e

/-- `_convert_docx_to_pdf_with_libreoffice` (lines 388-438): missing binary
is a failure without invocation; after a successful run the generated PDF
must exist and be nonempty and is moved onto the requested output when their
resolved paths differ. -/
def convert_docx_to_pdf_with_libreoffice (env : ConvEnv) (inputDocx outputPdf : FPath)
    (fs : FS) : Option String × FS × List ConvEvent :=
  match env.loBinary with
  | none => (some "LibreOffice binary not found", fs, [])
  | some binary =>
    let generatedPdf := joinPath (parentPath outputPdf)
      (nameStem (pathName inputDocx) ++ ".pdf")
    match env.loRun fs with
    | (some e, fs1) => (some ("LibreOffice convert failed: " ++ e), fs1,
        [.loInvoked binary env.loTimeout])
    | (none, fs1) =>
      match fsLookup fs1 generatedPdf with
      | none => (some ("LibreOffice did not output: " ++ pathStr generatedPdf), fs1,
          [.loInvoked binary env.loTimeout])
      | some sz =>
        if sz = 0 then
          (some ("LibreOffice output is empty: " ++ pathStr generatedPdf), fs1,
            [.loInvoked binary env.loTimeout])
        else if generatedPdf = outputPdf then
          (none, fs1, [.loInvoked binary env.loTimeout])
        else (none, fsMove fs1 generatedPdf outputPdf, [.loInvoked binary env.loTimeout])

/-- The aggregated failure message (lines 480-481, 548-550). -/
def convFailMsg (inputDocx : FPath) (errors : List String) (alt : String) : String :=
  "PDF conversion failed for " ++ pathStr inputDocx ++ ". Details: " ++
    (if errors.isEmpty then alt else joinStrings "; " errors)

structure ConvResult where
  outcome : Except String FPath
  fs : FS
  events : List ConvEvent
  recorded : List String
deriving Repr


/-- The tail of every attempt: succeed when the requested output is ready,
otherwise continue with `next` (the `if output_ready(): return output_pdf`
checkpoints of lines 476, 489, 512, 545). -/
def convStep (outputPdf : FPath) (fs : FS) (errors : List String)
    (tr : List ConvEvent) (next : FS → List String → List ConvEvent → ConvResult) :
    ConvResult :=
  if outputReady fs outputPdf then ⟨.ok outputPdf, fs, tr, errors⟩
  else next fs errors tr

/-- The final aggregation (lines 548-551). -/
def convRaise (inputDocx : FPath) (fs : FS) (errors : List String)
    (tr : List ConvEvent) : ConvResult :=
  ⟨.error (convFailMsg inputDocx errors "unknown error"), fs, tr, errors⟩

/-- Attempt 3 of the docx2pdf backend (pipeline.py lines 515-551): copy into
a staging folder inside the output folder, convert there, move a nonempty
staged PDF onto the requested output, clean up, then either succeed on a
ready output or raise the aggregated error.  A missing copy source records a
setup failure without invoking the converter for the copy (the staging
`mkdir` is implicit in the FS model). -/
def d2pStagingAttempt (env : ConvEnv) (inputDocx outputPdf : FPath) (fs5 : FS)
    (errors3 : List String) (tr3 : List ConvEvent) : ConvResult :=
  let stagingDocx := joinPath (joinPath (parentPath outputPdf) ".pdf-staging")
    (pathName inputDocx)
  let stagingPdf := withSuffix stagingDocx ".pdf"
  let setupErrors := match fsLookup fs5 inputDocx with
    | some _ => errors3
    | none => errors3 ++ ["staging setup failed: copy source missing"]
  let fs6 := match fsLookup fs5 inputDocx with
    | some n =>
      let fsA := fsSet fs5 stagingDocx n
      if fsExists fsA stagingPdf then fsRemove fsA stagingPdf else fsA
    | none => fs5
  let r3 := env.d2pConvert stagingDocx none fs6
  let tr4 := tr3 ++ [.docx2pdfInvoked stagingDocx none]
  let errors5 := setupErrors ++ (match r3.1 with
    | some e => ["docx2pdf staging convert failed: " ++ e]
    | none => [])
  let fs8 := if fileNonempty r3.2 stagingPdf then fsMove r3.2 stagingPdf outputPdf
    else r3.2
  let fs9 := if fsExists fs8 stagingDocx then fsRemove fs8 stagingDocx else fs8
  convStep outputPdf fs9 errors5 tr4 (convRaise inputDocx)

/-- Attempt 2 (lines 492-513): convert beside the DOCX, then move a nonempty
in-place PDF onto the requested output when the paths differ. -/
def d2pInPlaceAttempt (env : ConvEnv) (inputDocx outputPdf : FPath) (fs2 : FS)
    (errors2 : List String) (tr2 : List ConvEvent) : ConvResult :=
  let inPlacePdf := withSuffix inputDocx ".pdf"
  let fs3 := if fsExists fs2 inPlacePdf && inPlacePdf ≠ outputPdf then
      fsRemove fs2 inPlacePdf
    else fs2
  let r2 := env.d2pConvert inputDocx none fs3
  let tr3 := tr2 ++ [.docx2pdfInvoked inputDocx none]
  let errors3 := errors2 ++ (match r2.1 with
    | some e => ["docx2pdf in-place convert failed: " ++ e]
    | none => [])
  let fs5 := if fileNonempty r2.2 inPlacePdf && inPlacePdf ≠ outputPdf then
      fsMove r2.2 inPlacePdf outputPdf
    else r2.2
  convStep outputPdf fs5 errors3 tr3 (d2pStagingAttempt env inputDocx outputPdf)

/-- Attempt 1 (lines 483-490): convert directly to the requested output. -/
def docx2pdfAttempts (env : ConvEnv) (inputDocx outputPdf : FPath) (fs1 : FS)
    (errors1 : List String) (tr1 : List ConvEvent) : ConvResult :=
  let r1 := env.d2pConvert inputDocx (some outputPdf) fs1
  let tr2 := tr1 ++ [.docx2pdfInvoked inputDocx (some outputPdf)]
  let errors2 := errors1 ++ (match r1.1 with
    | some e => ["docx2pdf direct convert failed: " ++ e]
    | none => [])
  convStep outputPdf r1.2 errors2 tr2 (d2pInPlaceAttempt env inputDocx outputPdf)

/-- `convert_docx_to_pdf` (lines 441-551): the LibreOffice backend when
permitted (a reported success additionally demands a ready output before
returning), then — when docx2pdf is permitted — the three attempt shapes;
otherwise the aggregated error. -/
def convert_docx_to_pdf (env : ConvEnv) (inputDocx outputPdf : FPath) (fs0 : FS) :
    ConvResult :=
  let engine := pdfEngineOf env
  let allowLO := (["auto", "libreoffice", "soffice"] : List String).contains engine
  let allowD2P :=
    (["auto", "docx2pdf", "word", "microsoft-word"] : List String).contains engine
  let lo := if allowLO then convert_docx_to_pdf_with_libreoffice env inputDocx outputPdf fs0
    else (none, fs0, [])
  let errors1 := match lo.1 with
    | some e => [e]
    | none => []
  if allowLO && lo.1.isNone && outputReady lo.2.1 outputPdf then
    ⟨.ok outputPdf, lo.2.1, lo.2.2, errors1⟩
  else if !allowD2P then
    ⟨.error (convFailMsg inputDocx errors1
        ("unsupported ASX_PDF_ENGINE: " ++ engine)), lo.2.1, lo.2.2, errors1⟩
  else docx2pdfAttempts env inputDocx outputPdf lo.2.1 errors1 lo.2.2

theorem convFailMsg_contains (inputDocx : FPath) (errors : List String) (alt : String) :
    containsStr ("PDF conversion failed for " ++ pathStr inputDocx)
      (convFailMsg inputDocx errors alt) = true ∧
    ∀ e ∈ errors, containsStr e (convFailMsg inputDocx errors alt) = true := by
  constructor
  · unfold convFailMsg containsStr
    have h := containsSeq_prefix_self
      ("PDF conversion failed for ".toList ++ (pathStr inputDocx).toList)
      (". Details: ".toList ++
        (if errors.isEmpty then alt else joinStrings "; " errors).toList)
    rw [List.append_assoc] at h
    simp only [toList_append, List.append_assoc]
    exact h
  · intro e he
    cases errors with
    | nil => simp at he
    | cons a as =>
      unfold convFailMsg containsStr
      simp only [List.isEmpty_cons, Bool.false_eq_true, if_false, toList_append,
        List.append_assoc]
      exact containsSeq_append_left _ _ _ (containsSeq_append_left _ _ _
        (containsSeq_append_left _ _ _ (contains_joinStrings "; " _ he)))


theorem convStepRaise_recorded (inputDocx outputPdf : FPath) (fs : FS)
    (errors : List String) (tr : List ConvEvent) :
    (convStep outputPdf fs errors tr (convRaise inputDocx)).recorded = errors := by
  unfold convStep convRaise
  split <;> rfl

theorem convStepRaise_events (inputDocx outputPdf : FPath) (fs : FS)
    (errors : List String) (tr : List ConvEvent) :
    (convStep outputPdf fs errors tr (convRaise inputDocx)).events = tr := by
  unfold convStep convRaise
  split <;> rfl

theorem convStepRaise_ok (inputDocx outputPdf : FPath) (fs : FS)
    (errors : List String) (tr : List ConvEvent) (p : FPath) :
    (convStep outputPdf fs errors tr (convRaise inputDocx)).outcome = .ok p →
    p = outputPdf ∧
    outputReady (convStep outputPdf fs errors tr (convRaise inputDocx)).fs
      outputPdf = true := by
  unfold convStep convRaise
  split
  case isTrue h1 =>
    intro h
    injection h with h
    exact ⟨h.symm, h1⟩
  case isFalse =>
    intro h
    exact absurd h (by simp)

theorem convStepRaise_error (inputDocx outputPdf : FPath) (fs : FS)
    (errors : List String) (tr : List ConvEvent) (msg : String) :
    (convStep outputPdf fs errors tr (convRaise inputDocx)).outcome = .error msg →
    msg = convFailMsg inputDocx
      (convStep outputPdf fs errors tr (convRaise inputDocx)).recorded
      "unknown error" := by
  unfold convStep convRaise
  split
  · intro h
    exact absurd h (by simp)
  · intro h
    injection h with h
    exact h.symm

theorem convStep_ok_of (outputPdf : FPath) (fs : FS) (errors : List String)
    (tr : List ConvEvent) (next : FS → List String → List ConvEvent → ConvResult)
    (hnext : ∀ fs' errors' tr' p, (next fs' errors' tr').outcome = .ok p →
      p = outputPdf ∧ outputReady (next fs' errors' tr').fs outputPdf = true)
    (p : FPath) :
    (convStep outputPdf fs errors tr next).outcome = .ok p →
    p = outputPdf ∧
    outputReady (convStep outputPdf fs errors tr next).fs outputPdf = true := by
  unfold convStep
  split
  case isTrue h1 =>
    intro h
    injection h with h
    exact ⟨h.symm, h1⟩
  case isFalse => exact hnext fs errors tr p

theorem convStep_recorded_of (outputPdf : FPath) (fs : FS) (errors : List String)
    (tr : List ConvEvent) (next : FS → List String → List ConvEvent → ConvResult)
    (hnext : ∀ fs' errors' tr' e, e ∈ errors' → e ∈ (next fs' errors' tr').recorded)
    (e : String) (he : e ∈ errors) :
    e ∈ (convStep outputPdf fs errors tr next).recorded := by
  unfold convStep
  split
  · exact he
  · exact hnext _ _ _ _ he

theorem convStep_events_of (outputPdf : FPath) (fs : FS) (errors : List String)
    (tr : List ConvEvent) (next : FS → List String → List ConvEvent → ConvResult)
    (P : ConvEvent → Prop)
    (hnext : ∀ fs' errors' tr' ev, ev ∈ (next fs' errors' tr').events →
      ev ∈ tr' ∨ P ev)
    (ev : ConvEvent) :
    ev ∈ (convStep outputPdf fs errors tr next).events → ev ∈ tr ∨ P ev := by
  unfold convStep
  split
  · exact fun h => Or.inl h
  · exact hnext _ _ _ _

theorem convStep_error_of (inputDocx outputPdf : FPath) (fs : FS)
    (errors : List String) (tr : List ConvEvent)
    (next : FS → List String → List ConvEvent → ConvResult) (msg : String)
    (hnext : ∀ fs' errors' tr', (next fs' errors' tr').outcome = .error msg →
      msg = convFailMsg inputDocx (next fs' errors' tr').recorded "unknown error") :
    (convStep outputPdf fs errors tr next).outcome = .error msg →
    msg = convFailMsg inputDocx (convStep outputPdf fs errors tr next).recorded
      "unknown error" := by
  unfold convStep
  split
  · intro h
    exact absurd h (by simp)
  · exact hnext _ _ _

theorem d2pStagingAttempt_ok (env : ConvEnv) (inputDocx outputPdf : FPath) (fs5 : FS)
    (errors3 : List String) (tr3 : List ConvEvent) (p : FPath) :
    (d2pStagingAttempt env inputDocx outputPdf fs5 errors3 tr3).outcome = .ok p →
    p = outputPdf ∧
    outputReady (d2pStagingAttempt env inputDocx outputPdf fs5 errors3 tr3).fs
      outputPdf = true := by
  unfold d2pStagingAttempt
  dsimp only
  exact convStepRaise_ok inputDocx outputPdf _ _ _ p

theorem d2pStagingAttempt_error (env : ConvEnv) (inputDocx outputPdf : FPath)
    (fs5 : FS) (errors3 : List String) (tr3 : List ConvEvent) (msg : String) :
    (d2pStagingAttempt env inputDocx outputPdf fs5 errors3 tr3).outcome = .error msg →
    msg = convFailMsg inputDocx
      (d2pStagingAttempt env inputDocx outputPdf fs5 errors3 tr3).recorded
      "unknown error" := by
  unfold d2pStagingAttempt
  dsimp only
  exact convStepRaise_error inputDocx outputPdf _ _ _ msg

theorem d2pStagingAttempt_recorded (env : ConvEnv) (inputDocx outputPdf : FPath)
    (fs5 : FS) (errors3 : List String) (tr3 : List ConvEvent) (e : String)
    (he : e ∈ errors3) :
    e ∈ (d2pStagingAttempt env inputDocx outputPdf fs5 errors3 tr3).recorded := by
  unfold d2pStagingAttempt
  dsimp only
  rw [convStepRaise_recorded]
  simp only [List.mem_append]
  left
  split
  · exact he
  · simp [he]

theorem d2pStagingAttempt_events (env : ConvEnv) (inputDocx outputPdf : FPath)
    (fs5 : FS) (errors3 : List String) (tr3 : List ConvEvent) (ev : ConvEvent) :
    ev ∈ (d2pStagingAttempt env inputDocx outputPdf fs5 errors3 tr3).events →
    ev ∈ tr3 ∨ ∃ i o, ev = ConvEvent.docx2pdfInvoked i o := by
  unfold d2pStagingAttempt
  dsimp only
  rw [convStepRaise_events]
  intro h
  simp only [List.mem_append, List.mem_singleton] at h
  rcases h with h | h
  · exact Or.inl h
  · exact Or.inr ⟨_, _, h⟩

theorem d2pInPlaceAttempt_ok (env : ConvEnv) (inputDocx outputPdf : FPath) (fs2 : FS)
    (errors2 : List String) (tr2 : List ConvEvent) (p : FPath) :
    (d2pInPlaceAttempt env inputDocx outputPdf fs2 errors2 tr2).outcome = .ok p →
    p = outputPdf ∧
    outputReady (d2pInPlaceAttempt env inputDocx outputPdf fs2 errors2 tr2).fs
      outputPdf = true := by
  unfold d2pInPlaceAttempt
  dsimp only
  exact convStep_ok_of outputPdf _ _ _ _
    (fun fs' e' t' => d2pStagingAttempt_ok env inputDocx outputPdf fs' e' t') p

theorem d2pInPlaceAttempt_error (env : ConvEnv) (inputDocx outputPdf : FPath)
    (fs2 : FS) (errors2 : List String) (tr2 : List ConvEvent) (msg : String) :
    (d2pInPlaceAttempt env inputDocx outputPdf fs2 errors2 tr2).outcome = .error msg →
    msg = convFailMsg inputDocx
      (d2pInPlaceAttempt env inputDocx outputPdf fs2 errors2 tr2).recorded
      "unknown error" := by
  unfold d2pInPlaceAttempt
  dsimp only
  exact convStep_error_of inputDocx outputPdf _ _ _ _ msg
    (fun fs' e' t' => d2pStagingAttempt_error env inputDocx outputPdf fs' e' t' msg)

theorem d2pInPlaceAttempt_recorded (env : ConvEnv) (inputDocx outputPdf : FPath)
    (fs2 : FS) (errors2 : List String) (tr2 : List ConvEvent) (e : String)
    (he : e ∈ errors2) :
    e ∈ (d2pInPlaceAttempt env inputDocx outputPdf fs2 errors2 tr2).recorded := by
  unfold d2pInPlaceAttempt
  dsimp only
  refine convStep_recorded_of outputPdf _ _ _ _
    (fun fs' e' t' x hx => d2pStagingAttempt_recorded env inputDocx outputPdf
      fs' e' t' x hx) e ?_
  simp [he]

theorem d2pInPlaceAttempt_events (env : ConvEnv) (inputDocx outputPdf : FPath)
    (fs2 : FS) (errors2 : List String) (tr2 : List ConvEvent) (ev : ConvEvent) :
    ev ∈ (d2pInPlaceAttempt env inputDocx outputPdf fs2 errors2 tr2).events →
    ev ∈ tr2 ∨ ∃ i o, ev = ConvEvent.docx2pdfInvoked i o := by
  unfold d2pInPlaceAttempt
  dsimp only
  intro h
  rcases convStep_events_of outputPdf _ _ _ _
    (fun ev => ∃ i o, ev = ConvEvent.docx2pdfInvoked i o)
    (fun fs' e' t' ev' => d2pStagingAttempt_events env inputDocx outputPdf fs' e' t' ev')
    ev h with h1 | h1
  · simp only [List.mem_append, List.mem_singleton] at h1
    rcases h1 with h1 | h1
    · exact Or.inl h1
    · exact Or.inr ⟨_, _, h1⟩
  · exact Or.inr h1

theorem docx2pdfAttempts_ok (env : ConvEnv) (inputDocx outputPdf : FPath) (fs1 : FS)
    (errors1 : List String) (tr1 : List ConvEvent) (p : FPath) :
    (docx2pdfAttempts env inputDocx outputPdf fs1 errors1 tr1).outcome = .ok p →
    p = outputPdf ∧
    outputReady (docx2pdfAttempts env inputDocx outputPdf fs1 errors1 tr1).fs
      outputPdf = true := by
  unfold docx2pdfAttempts
  dsimp only
  exact convStep_ok_of outputPdf _ _ _ _
    (fun fs' e' t' => d2pInPlaceAttempt_ok env inputDocx outputPdf fs' e' t') p

theorem docx2pdfAttempts_error (env : ConvEnv) (inputDocx outputPdf : FPath)
    (fs1 : FS) (errors1 : List String) (tr1 : List ConvEvent) (msg : String) :
    (docx2pdfAttempts env inputDocx outputPdf fs1 errors1 tr1).outcome = .error msg →
    msg = convFailMsg inputDocx
      (docx2pdfAttempts env inputDocx outputPdf fs1 errors1 tr1).recorded
      "unknown error" := by
  unfold docx2pdfAttempts
  dsimp only
  exact convStep_error_of inputDocx outputPdf _ _ _ _ msg
    (fun fs' e' t' => d2pInPlaceAttempt_error env inputDocx outputPdf fs' e' t' msg)

theorem docx2pdfAttempts_recorded (env : ConvEnv) (inputDocx outputPdf : FPath)
    (fs1 : FS) (errors1 : List String) (tr1 : List ConvEvent) (e : String)
    (he : e ∈ errors1) :
    e ∈ (docx2pdfAttempts env inputDocx outputPdf fs1 errors1 tr1).recorded := by
  unfold docx2pdfAttempts
  dsimp only
  refine convStep_recorded_of outputPdf _ _ _ _
    (fun fs' e' t' x hx => d2pInPlaceAttempt_recorded env inputDocx outputPdf
      fs' e' t' x hx) e ?_
  simp [he]

theorem docx2pdfAttempts_events (env : ConvEnv) (inputDocx outputPdf : FPath)
    (fs1 : FS) (errors1 : List String) (tr1 : List ConvEvent) (ev : ConvEvent) :
    ev ∈ (docx2pdfAttempts env inputDocx outputPdf fs1 errors1 tr1).events →
    ev ∈ tr1 ∨ ∃ i o, ev = ConvEvent.docx2pdfInvoked i o := by
  unfold docx2pdfAttempts
  dsimp only
  intro h
  rcases convStep_events_of outputPdf _ _ _ _
    (fun ev => ∃ i o, ev = ConvEvent.docx2pdfInvoked i o)
    (fun fs' e' t' ev' => d2pInPlaceAttempt_events env inputDocx outputPdf fs' e' t' ev')
    ev h with h1 | h1
  · simp only [List.mem_append, List.mem_singleton] at h1
    rcases h1 with h1 | h1
    · exact Or.inl h1
    · exact Or.inr ⟨_, _, h1⟩
  · exact Or.inr h1

theorem convStep_events_mono (outputPdf : FPath) (fs : FS) (errors : List String)
    (tr : List ConvEvent) (next : FS → List String → List ConvEvent → ConvResult)
    (hnext : ∀ fs' errors' tr' ev, ev ∈ tr' → ev ∈ (next fs' errors' tr').events)
    (ev : ConvEvent) (he : ev ∈ tr) :
    ev ∈ (convStep outputPdf fs errors tr next).events := by
  unfold convStep
  split
  · exact he
  · exact hnext _ _ _ _ he

theorem d2pStagingAttempt_events_mono (env : ConvEnv) (inputDocx outputPdf : FPath)
    (fs5 : FS) (errors3 : List String) (tr3 : List ConvEvent) (ev : ConvEvent)
    (he : ev ∈ tr3) :
    ev ∈ (d2pStagingAttempt env inputDocx outputPdf fs5 errors3 tr3).events := by
  unfold d2pStagingAttempt
  dsimp only
  rw [convStepRaise_events]
  simp [he]

theorem d2pInPlaceAttempt_events_mono (env : ConvEnv) (inputDocx outputPdf : FPath)
    (fs2 : FS) (errors2 : List String) (tr2 : List ConvEvent) (ev : ConvEvent)
    (he : ev ∈ tr2) :
    ev ∈ (d2pInPlaceAttempt env inputDocx outputPdf fs2 errors2 tr2).events := by
  unfold d2pInPlaceAttempt
  dsimp only
  refine convStep_events_mono outputPdf _ _ _ _
    (fun fs' e' t' ev' he' => d2pStagingAttempt_events_mono env inputDocx outputPdf
      fs' e' t' ev' he') ev ?_
  simp [he]

theorem docx2pdfAttempts_direct_invoked (env : ConvEnv) (inputDocx outputPdf : FPath)
    (fs1 : FS) (errors1 : List String) (tr1 : List ConvEvent) :
    ConvEvent.docx2pdfInvoked inputDocx (some outputPdf) ∈
      (docx2pdfAttempts env inputDocx outputPdf fs1 errors1 tr1).events := by
  unfold docx2pdfAttempts
  dsimp only
  refine convStep_events_mono outputPdf _ _ _ _
    (fun fs' e' t' ev' he' => d2pInPlaceAttempt_events_mono env inputDocx outputPdf
      fs' e' t' ev' he') _ ?_
  simp

/-- C7 (amended).  (a) `convert_docx_to_pdf` returns normally only with the
requested output existing and nonempty; (b) when LibreOffice is permitted but
its attempt leaves the output not ready (whether it reported an error or
not), the docx2pdf backend is invoked next (when permitted); (c) a missing
LibreOffice binary is recorded as a failure without the subprocess being
invoked; (d) on total failure the raised detail aggregates every *recorded*
attempt — every recorded error is a substring of the message — but a backend
attempt that reported success while leaving no (or an empty) output records
nothing and therefore need not be named (see the counterexample). -/
theorem conversion_fallback_amended (env : ConvEnv) (inputDocx outputPdf : FPath)
    (fs0 : FS) :
    (∀ p, (convert_docx_to_pdf env inputDocx outputPdf fs0).outcome = .ok p →
      p = outputPdf ∧
      outputReady (convert_docx_to_pdf env inputDocx outputPdf fs0).fs
        outputPdf = true) ∧
    ((["auto", "libreoffice", "soffice"] : List String).contains
        (pdfEngineOf env) = true →
      (["auto", "docx2pdf", "word", "microsoft-word"] : List String).contains
        (pdfEngineOf env) = true →
      outputReady (convert_docx_to_pdf_with_libreoffice env inputDocx outputPdf
        fs0).2.1 outputPdf = false →
      ConvEvent.docx2pdfInvoked inputDocx (some outputPdf) ∈
        (convert_docx_to_pdf env inputDocx outputPdf fs0).events) ∧
    ((["auto", "libreoffice", "soffice"] : List String).contains
        (pdfEngineOf env) = true →
      env.loBinary = none →
      "LibreOffice binary not found" ∈
        (convert_docx_to_pdf env inputDocx outputPdf fs0).recorded ∧
      ∀ b t, ConvEvent.loInvoked b t ∉
        (convert_docx_to_pdf env inputDocx outputPdf fs0).events) ∧
    (∀ msg, (convert_docx_to_pdf env inputDocx outputPdf fs0).outcome = .error msg →
      containsStr ("PDF conversion failed for " ++ pathStr inputDocx) msg = true ∧
      ∀ e ∈ (convert_docx_to_pdf env inputDocx outputPdf fs0).recorded,
        containsStr e msg = true) := by
  refine ⟨?_, ?_, ?_, ?_⟩
  · unfold convert_docx_to_pdf
    dsimp only
    split
    · split
      case isTrue h1 =>
        intro p h
        injection h with h
        simp only [Bool.and_eq_true] at h1
        exact ⟨h.symm, h1.2⟩
      case isFalse =>
        split
        · intro p h
          exact absurd h (by simp)
        · exact fun p => docx2pdfAttempts_ok env inputDocx outputPdf _ _ _ p
    · split
      case isTrue h1 =>
        intro p h
        injection h with h
        simp only [Bool.and_eq_true] at h1
        exact ⟨h.symm, h1.2⟩
      case isFalse =>
        split
        · intro p h
          exact absurd h (by simp)
        · exact fun p => docx2pdfAttempts_ok env inputDocx outputPdf _ _ _ p
  · intro hLO hD2P hnr
    unfold convert_docx_to_pdf
    dsimp only
    rw [hLO, hD2P]
    simp only [if_true, hnr, Bool.and_false, Bool.false_eq_true, if_false,
      Bool.not_true]
    exact docx2pdfAttempts_direct_invoked env inputDocx outputPdf _ _ _
  · intro hLO hbin
    unfold convert_docx_to_pdf convert_docx_to_pdf_with_libreoffice
    dsimp only
    rw [hLO, hbin]
    simp only [if_true, Option.isNone_some, Bool.and_false, Bool.false_and,
      Bool.false_eq_true, if_false]
    split
    · constructor
      · simp
      · intro b t hev
        simp at hev
    · constructor
      · exact docx2pdfAttempts_recorded env inputDocx outputPdf _ _ _ _ (by simp)
      · intro b t hev
        rcases docx2pdfAttempts_events env inputDocx outputPdf _ _ _ _ hev with
          h1 | ⟨i, o, heq⟩
        · simp at h1
        · exact absurd heq (by simp)
  · unfold convert_docx_to_pdf
    dsimp only
    split
    · split
      · intro msg h
        exact absurd h (by simp)
      · split
        · intro msg h
          injection h with h
          subst h
          exact ⟨(convFailMsg_contains inputDocx _ _).1,
            (convFailMsg_contains inputDocx _ _).2⟩
        · intro msg h
          have hmsg := docx2pdfAttempts_error env inputDocx outputPdf _ _ _ msg h
          subst hmsg
          exact ⟨(convFailMsg_contains inputDocx _ _).1,
            (convFailMsg_contains inputDocx _ _).2⟩
    · split
      · intro msg h
        exact absurd h (by simp)
      · split
        · intro msg h
          injection h with h
          subst h
          exact ⟨(convFailMsg_contains inputDocx _ _).1,
            (convFailMsg_contains inputDocx _ _).2⟩
        · intro msg h
          have hmsg := docx2pdfAttempts_error env inputDocx outputPdf _ _ _ msg h
          subst hmsg
          exact ⟨(convFailMsg_contains inputDocx _ _).1,
            (convFailMsg_contains inputDocx _ _).2⟩

/-- C7 (counterexample setup): LibreOffice binary missing, and a docx2pdf
converter that reports success while writing nothing. -/
def c7Env : ConvEnv :=
  { pdfEngineEnv := none, loBinary := none, loTimeout := 120,
    loRun := fun fs => (none, fs), d2pConvert := fun _ _ fs => (none, fs) }

def c7Input : FPath := ["tmp", "report.docx"]

def c7Output : FPath := ["tmp", "report.pdf"]

def c7FS : FS := [(c7Input, 100)]

/-- C7 (counterexample).  All permitted backends fail — docx2pdf is invoked
(three shapes) and reports success each time while leaving no output — yet
the aggregated error names only LibreOffice: a backend that fails by
reporting success with a missing/empty output records nothing, so the raised
detail does not name every attempted backend as the claim states. -/
theorem conversion_naming_counterexample :
    (convert_docx_to_pdf c7Env c7Input c7Output c7FS).outcome =
      .error "PDF conversion failed for tmp/report.docx. Details: LibreOffice binary not found" ∧
    ConvEvent.docx2pdfInvoked c7Input (some c7Output) ∈
      (convert_docx_to_pdf c7Env c7Input c7Output c7FS).events ∧
    containsStr "docx2pdf"
      "PDF conversion failed for tmp/report.docx. Details: LibreOffice binary not found" = false := by
  refine ⟨by rfl, by decide, by decide⟩

/-- C7 (witness setup): every backend fails with a reported error. -/
def c7WitEnv : ConvEnv :=
  { pdfEngineEnv := none, loBinary := none, loTimeout := 120,
    loRun := fun fs => (none, fs),
    d2pConvert := fun _ _ fs => (some "converter unavailable", fs) }

/-- C7 (witness): the amended theorem applied at a run where every attempt
records an error; the missing binary is recorded without invocation and each
recorded attempt is aggregated into the raised detail. -/
theorem conversion_fallback_amended_witness :
    "LibreOffice binary not found" ∈
      (convert_docx_to_pdf c7WitEnv c7Input c7Output c7FS).recorded ∧
    containsStr "docx2pdf direct convert failed: converter unavailable"
      "PDF conversion failed for tmp/report.docx. Details: LibreOffice binary not found; docx2pdf direct convert failed: converter unavailable; docx2pdf in-place convert failed: converter unavailable; docx2pdf staging convert failed: converter unavailable" = true := by
  have h := conversion_fallback_amended c7WitEnv c7Input c7Output c7FS
  refine ⟨(h.2.2.1 (by decide) rfl).1, ?_⟩
  exact (h.2.2.2
    "PDF conversion failed for tmp/report.docx. Details: LibreOffice binary not found; docx2pdf direct convert failed: converter unavailable; docx2pdf in-place convert failed: converter unavailable; docx2pdf staging convert failed: converter unavailable"
    (by rfl)).2 "docx2pdf direct convert failed: converter unavailable" (by decide)

/-! ## `run_asx_report` and `send_email_with_mail_app`
(pipeline.py lines 554-591 and 641-697, claim C9)

The capture, render and conversion stages are collaborator oracles returning
`Except`; timestamps (`strftime` of the two `datetime.now()` calls) are the
parameters `tsStamp` and `genAt`; `events` records each collaborator
invocation with its arguments. -/

structure CaptureInfo where
  finalUrl : String
  captureSelector : String
  captureAttempt : String
  captureRefreshes : String
deriving DecidableEq, Repr

structure RunCollab where
  resolveEnv : ResolveEnv
  capture : String → String → Except String CaptureInfo
  render : String → String → String → String → Except String Unit
  convert : String → String → Except String Unit
  mailAttachmentExists : Bool
  osascript : Except String Unit

inductive RunEvent where
  | captureEv (url image : String)
  | renderEv (title sourceUrl image docx : String)
  | convertEv (docx pdf : String)
  | sendEv (recipient subject body attachment : String)
deriving DecidableEq, Repr

structure RunArgs where
  asxCode : Option String
  recipient : String
  outputDir : String
  emailSubject : Option String
  emailBody : Option String
  sendEmail : Bool

/-- Python `x or default` for optional strings (`None` and `""` are falsy). -/
def orDefault (o : Option String) (d : String) : String :=
  match o with
  | some s => if s = "" then d else s
  | none => d

/-- `send_email_with_mail_app` (lines 554-591): a missing attachment raises
before the Mail subprocess; `subprocess.run(..., check=True)` raises on a
non-zero exit (the oracle's error). -/
def send_email_with_mail_app (attachmentExists : Bool)
    (osascript : Except String Unit) (recipient subject body attachment : String) :
    Except String Unit :=
  if !attachmentExists then .error ("Attachment does not exist: " ++ attachment)
  else osascript

/-- The generated default subject (line 662). -/
def defaultSubject (slug genAt : String) : String :=
  "Yahoo Finance Chart Report: " ++ String.mk (slug.toList.map pyToUpper) ++
    " (" ++ genAt ++ ")"

/-- The generated default body (lines 663-668). -/
def defaultBody (code sourceUrl genAt : String) : String :=
  "Attached is your Yahoo Finance chart report PDF.\n\nTicker: " ++
    String.mk (code.toList.map pyToUpper) ++ ".AX\nSource URL: " ++ sourceUrl ++
    "\nGenerated: " ++ genAt

/-- `resolved_output_dir / f"asx-{slug}-{timestamp}{ext}"` (lines 654-656). -/
def runArtifact (dir slug tsStamp ext : String) : String :=
  dir ++ "/asx-" ++ slug ++ "-" ++ tsStamp ++ ext

/-- `run_asx_report` (lines 641-697). -/
def run_asx_report (co : RunCollab) (tsStamp genAt : String) (a : RunArgs) :
    Except String Payload × List RunEvent :=
  let normalizedCode := normalizeOpt a.asxCode
  let slug := normalizedCode.getD "HUB"
  match resolve_output_dir co.resolveEnv a.outputDir with
  | .error e => (.error e, [])
  | .ok dir =>
    let imagePath := runArtifact dir slug tsStamp ".png"
    let docxPath := runArtifact dir slug tsStamp ".docx"
    let pdfPath := runArtifact dir slug tsStamp ".pdf"
    let sourceUrl := build_asx_url normalizedCode
    match co.capture sourceUrl imagePath with
    | .error e => (.error e, [.captureEv sourceUrl imagePath])
    | .ok ci =>
      let subject := orDefault a.emailSubject (defaultSubject slug genAt)
      let body := orDefault a.emailBody
        (defaultBody (normalizedCode.getD "HUB") sourceUrl genAt)
      match co.render subject sourceUrl imagePath docxPath with
      | .error e => (.error e,
          [.captureEv sourceUrl imagePath,
           .renderEv subject sourceUrl imagePath docxPath])
      | .ok _ =>
        match co.convert docxPath pdfPath with
        | .error e => (.error e,
            [.captureEv sourceUrl imagePath,
             .renderEv subject sourceUrl imagePath docxPath,
             .convertEv docxPath pdfPath])
        | .ok _ =>
          let payload : Payload :=
            [("recipient", a.recipient), ("source_url", sourceUrl),
             ("final_url", ci.finalUrl),
             ("image_path", co.resolveEnv.resolveAbs imagePath),
             ("docx_path", co.resolveEnv.resolveAbs docxPath),
             ("pdf_path", co.resolveEnv.resolveAbs pdfPath),
             ("capture_selector", ci.captureSelector),
             ("capture_attempt", ci.captureAttempt),
             ("capture_refreshes", ci.captureRefreshes),
             ("sent_email", if a.sendEmail then "true" else "false")]
          if a.sendEmail then
            match send_email_with_mail_app co.mailAttachmentExists co.osascript
                a.recipient subject body pdfPath with
            | .error e => (.error e,
                [.captureEv sourceUrl imagePath,
                 .renderEv subject sourceUrl imagePath docxPath,
                 .convertEv docxPath pdfPath,
                 .sendEv a.recipient subject body pdfPath])
            | .ok _ => (.ok payload,
                [.captureEv sourceUrl imagePath,
                 .renderEv subject sourceUrl imagePath docxPath,
                 .convertEv docxPath pdfPath,
                 .sendEv a.recipient subject body pdfPath])
          else (.ok payload,
              [.captureEv sourceUrl imagePath,
               .renderEv subject sourceUrl imagePath docxPath,
               .convertEv docxPath pdfPath])

/-- C9.  When delivery is requested and the run reaches the delivery step
(location resolved, capture / render / conversion succeeded), the delivery
collaborator is invoked with the final PDF, the recipient, and the
subject/body (which default to the generated text naming the canonical code
and the generation timestamp when the caller supplies none); a missing
attachment or a failing Mail subprocess makes the whole run fail. -/
theorem delivery_mandatory (co : RunCollab) (tsStamp genAt : String) (a : RunArgs)
    (dir : String) (ci : CaptureInfo)
    (hsend : a.sendEmail = true)
    (hdir : resolve_output_dir co.resolveEnv a.outputDir = .ok dir)
    (hcap : co.capture (build_asx_url (normalizeOpt a.asxCode))
      (runArtifact dir ((normalizeOpt a.asxCode).getD "HUB") tsStamp ".png") = .ok ci)
    (hrender : ∀ t s i d, co.render t s i d = .ok ())
    (hconv : ∀ d p, co.convert d p = .ok ()) :
    RunEvent.sendEv a.recipient
      (orDefault a.emailSubject
        (defaultSubject ((normalizeOpt a.asxCode).getD "HUB") genAt))
      (orDefault a.emailBody
        (defaultBody ((normalizeOpt a.asxCode).getD "HUB")
          (build_asx_url (normalizeOpt a.asxCode)) genAt))
      (runArtifact dir ((normalizeOpt a.asxCode).getD "HUB") tsStamp ".pdf") ∈
      (run_asx_report co tsStamp genAt a).2 ∧
    (a.emailSubject = none →
      orDefault a.emailSubject
        (defaultSubject ((normalizeOpt a.asxCode).getD "HUB") genAt) =
      "Yahoo Finance Chart Report: " ++
        String.mk (((normalizeOpt a.asxCode).getD "HUB").toList.map pyToUpper) ++
        " (" ++ genAt ++ ")") ∧
    (co.mailAttachmentExists = false →
      (run_asx_report co tsStamp genAt a).1 =
        .error ("Attachment does not exist: " ++
          runArtifact dir ((normalizeOpt a.asxCode).getD "HUB") tsStamp ".pdf")) ∧
    (∀ e, co.mailAttachmentExists = true → co.osascript = .error e →
      (run_asx_report co tsStamp genAt a).1 = .error e) := by
  refine ⟨?_, ?_, ?_, ?_⟩
  · unfold run_asx_report
    rw [hdir]
    dsimp only
    rw [hcap]
    dsimp only
    rw [hrender, hconv, hsend]
    dsimp only
    rw [if_pos rfl]
    split <;> simp
  · intro hnone
    rw [hnone]
    rfl
  · intro hatt
    unfold run_asx_report
    rw [hdir]
    dsimp only
    rw [hcap]
    dsimp only
    rw [hrender, hconv, hsend]
    dsimp only
    rw [if_pos rfl]
    unfold send_email_with_mail_app
    rw [hatt]
    rfl
  · intro e hatt hos
    unfold run_asx_report
    rw [hdir]
    dsimp only
    rw [hcap]
    dsimp only
    rw [hrender, hconv, hsend]
    dsimp only
    rw [if_pos rfl]
    unfold send_email_with_mail_app
    rw [hatt, hos]
    rfl

/-- C9 (witness setup): writable default folder, succeeding capture / render
/ conversion collaborators, an existing attachment, and a Mail subprocess
that exits non-zero. -/
def c9Collab : RunCollab :=
  { resolveEnv := ⟨"/Users/u", id, fun p => p == "output"⟩,
    capture := fun _ _ => .ok ⟨"https://au.finance.yahoo.com/quote/BHP.AX/",
      "section", "1", "0"⟩,
    render := fun _ _ _ _ => .ok (),
    convert := fun _ _ => .ok (),
    mailAttachmentExists := true,
    osascript := .error "osascript exited 1" }

def c9Args : RunArgs :=
  { asxCode := some "BHP", recipient := "user@example.com", outputDir := "output",
    emailSubject := none, emailBody := none, sendEmail := true }

/-- C9 (witness): the theorem applied at a concrete failing-Mail run — the
delivery failure fails the whole run. -/
theorem delivery_mandatory_witness :
    (run_asx_report c9Collab "20260101-120000" "2026-01-01 12:00:00" c9Args).1 =
      .error "osascript exited 1" :=
  (delivery_mandatory c9Collab "20260101-120000" "2026-01-01 12:00:00" c9Args
    "output" ⟨"https://au.finance.yahoo.com/quote/BHP.AX/", "section", "1", "0"⟩
    rfl (by rfl) (by rfl) (fun t s i d => rfl) (fun d p => rfl)).2.2.2
    "osascript exited 1" rfl rfl
